import Mathlib

/-!
Verification of the go-render-redact rendering engine.

This file shallowly embeds the engine found in `render/marshaller.go` and the
render core (`traverseState.render`, `writeType`, `cmpForType`,
`tryAndSortMapKeys`, `redactField`, `isRemoved`,
`callRegisteredTypeFormatter`, `MaskWriter.Write`, `forkFor`) into Lean and
proves properties of the embedding.  The repository contains several
superseded snapshots of the same engine; the embedding follows the most
complete variant: the functional-options `Marshaller` together with the
`MaskWriter`-based render core.

Modelling conventions:
* Go runtime values are finite trees (`GoValue`); every value carries its
  `reflect.Type` information inline (`GoType`).  Cyclic runtime values are
  represented by finite unrollings in which the repeated object carries the
  same identity (`v.Pointer()` is modelled as a `Nat` identity); since the
  engine cuts recursion at a repeated identity, a finite unrolling past the
  cut reproduces the engine's output exactly.
* Go strings are byte strings; `Char` here stands for a byte.  All concrete
  inputs used below are ASCII, where the two notions agree.
* Floating point values are modelled as `GoFloat`: either NaN or an exact
  rational.  The comparison semantics (every comparison involving NaN is
  false) is the part the engine's key ordering observes.  The textual `%g`
  form of floats is abstracted by an executable formatter; no claim depends
  on the exact float text.
* Failure of a user-supplied type formatter (a Go panic, recovered by the
  engine) is modelled by the formatter returning `none`.
-/

namespace GoRender

/-- Model of a Go floating point number: NaN or an exact rational. -/
inductive GoFloat where
  | nan : GoFloat
  | fin (q : ℚ) : GoFloat
deriving DecidableEq

/-- Go `<` on floats: any comparison involving NaN is false. -/
def GoFloat.blt : GoFloat → GoFloat → Bool
  | .fin a, .fin b => Rat.blt a b
  | _, _ => false

/-- Go `<` on strings: byte-wise lexicographic order (`Char` stands for a
byte here). -/
def goStrLt : List Char → List Char → Bool
  | [], [] => false
  | [], _ :: _ => true
  | _ :: _, [] => false
  | a :: as, b :: bs =>
      if a.toNat < b.toNat then true
      else if b.toNat < a.toNat then false
      else goStrLt as bs

/-- A struct tag, as an association list from tag key to tag value,
modelling `reflect.StructTag` restricted to `Lookup`. -/
abbrev GoTag := List (String × String)

/-- Model of `reflect.StructTag.Lookup`. -/
def tagLookup (tags : GoTag) (key : String) : Option String :=
  match tags with
  | [] => none
  | (k, v) :: tl => if k = key then some v else tagLookup tl key

/-- Model of `reflect.Type` for the kinds the engine dispatches on.  Scalar
constructors carry the builtin name of their `reflect.Kind` (`kind`, e.g.
"int8"), the type's `Name()` (`name`) and its `String()` (`str`).  Pointer
types in Go always have an empty `Name()` and a `String()` of the form
`"*" ++ elem.String()`, so `tptr` carries only the element type.  A struct
field is a triple `(name, tag, type)`. -/
inductive GoType where
  | tbool (name str : String)
  | tint (kind name str : String)
  | tuint (kind name str : String)
  | tfloat (kind name str : String)
  | tcomplex (kind name str : String)
  | tstring (name str : String)
  | tstruct (name str : String) (fields : List (String × GoTag × GoType))
  | tptr (elem : GoType)
  | tslice (name str : String) (elem : GoType)
  | tarray (len : Nat) (name str : String) (elem : GoType)
  | tmap (name str : String) (key elem : GoType)
  | tiface (name str : String)
  | tchan (name str : String)
  | tfunc (name str : String)
  | tunsafeptr (name str : String)

/-- The type's `Name()`. -/
def GoType.tname : GoType → String
  | .tbool n _ => n
  | .tint _ n _ => n
  | .tuint _ n _ => n
  | .tfloat _ n _ => n
  | .tcomplex _ n _ => n
  | .tstring n _ => n
  | .tstruct n _ _ => n
  | .tptr _ => ""
  | .tslice n _ _ => n
  | .tarray _ n _ _ => n
  | .tmap n _ _ _ => n
  | .tiface n _ => n
  | .tchan n _ => n
  | .tfunc n _ => n
  | .tunsafeptr n _ => n

/-- The type's `String()`. -/
def GoType.tstr : GoType → String
  | .tbool _ s => s
  | .tint _ _ s => s
  | .tuint _ _ s => s
  | .tfloat _ _ s => s
  | .tcomplex _ _ s => s
  | .tstring _ s => s
  | .tstruct _ s _ => s
  | .tptr e => "*" ++ e.tstr
  | .tslice _ s _ => s
  | .tarray _ _ s _ => s
  | .tmap _ s _ _ => s
  | .tiface _ s => s
  | .tchan _ s => s
  | .tfunc _ s => s
  | .tunsafeptr _ s => s

/-- The entry `builtinTypeMap[t.Kind()]`; a missing kind yields the zero
value `""`, exactly as a Go map lookup does. -/
def GoType.kindBuiltinName : GoType → String
  | .tbool _ _ => "bool"
  | .tint k _ _ => k
  | .tuint k _ _ => k
  | .tfloat k _ _ => k
  | .tcomplex k _ _ => k
  | .tstring _ _ => "string"
  | _ => ""

/-- Whether the kind is Interface. -/
def GoType.isIfaceKind : GoType → Bool
  | .tiface _ _ => true
  | _ => false

/-- Whether the kind is Chan, Func or UnsafePointer (the kinds whose type
is always parenthesised by `writeType`). -/
def GoType.isChanFuncUnsafeKind : GoType → Bool
  | .tchan _ _ => true
  | .tfunc _ _ => true
  | .tunsafeptr _ _ => true
  | _ => false

/-- Element type of a pointer, slice, array or map type (its `Elem()`);
calling `Elem()` on other kinds panics in Go and is never done by the
engine, so a dummy is returned. -/
def GoType.elemType : GoType → GoType
  | .tptr e => e
  | .tslice _ _ e => e
  | .tarray _ _ _ e => e
  | .tmap _ _ _ e => e
  | t => t

/-- Key type of a map type (its `Key()`). -/
def GoType.keyType : GoType → GoType
  | .tmap _ _ k _ => k
  | t => t

/-- The contents of `builtinTypeSet`: the values of `builtinTypeMap`. -/
def builtinTypeSet : List String :=
  ["bool", "complex128", "complex64", "float32", "float64", "int16",
   "int32", "int64", "int8", "int", "string", "uint16", "uint32",
   "uint64", "uint8", "uint", "uintptr"]

/-- The `isAnon` closure of `traverseState.render`: a type renders its
values anonymously when its name is empty or a builtin name, and its kind
is not Interface. -/
def isAnon (t : GoType) : Bool :=
  if t.tname ≠ "" && !builtinTypeSet.contains t.tname then false
  else !t.isIfaceKind

/-- The map-key anonymity test of the map case:
`typeOfString.ConvertibleTo(kt) || typeOfInt.ConvertibleTo(kt) ||
typeOfUint.ConvertibleTo(kt) || typeOfFloat.ConvertibleTo(kt)`.
By Go's conversion rules this holds exactly when the key's kind is a
string, integer, unsigned-integer (including uintptr) or float kind:
`int` converts to every numeric kind and to string kinds, `string`
converts to string kinds, and no listed type converts to bool, complex,
pointer, channel, interface, struct or array kinds. -/
def keyConvAnon : GoType → Bool
  | .tstring _ _ => true
  | .tint _ _ _ => true
  | .tuint _ _ _ => true
  | .tfloat _ _ _ => true
  | _ => false

/-- Model of `writeType`. -/
def writeType (ptrs : Nat) (t : GoType) : String :=
  let parens := decide (0 < ptrs) || t.isChanFuncUnsafeKind
  let core :=
    match t with
    | .tptr e => (if ptrs = 0 then "*" else "") ++ writeType 0 e
    | .tiface n s => if n ≠ "" then s else "interface\x7b\x7d"
    | .tarray len _ _ e => "[" ++ toString len ++ "]" ++ writeType 0 e
    | .tslice n s e => if n = "" then "[]" ++ writeType 0 e else s
    | .tmap n s k e =>
        if n = "" then "map[" ++ writeType 0 k ++ "]" ++ writeType 0 e else s
    | other => other.tstr
  if parens then "(" ++ String.mk (List.replicate ptrs '*') ++ core ++ ")"
  else core

/-- Model of a `reflect.Value` as seen by the engine.  Every value carries
its type.  `id` fields model `v.Pointer()` (0 for nil pointers, slices and
maps).  `viface` additionally carries the two words of
`v.InterfaceData()`, which the map-key comparator reads.  `vinvalid` is
the zero `reflect.Value` (kind Invalid). -/
inductive GoValue where
  | vinvalid
  | vbool (t : GoType) (b : Bool)
  | vint (t : GoType) (n : Int)
  | vuint (t : GoType) (n : Nat)
  | vfloat (t : GoType) (x : GoFloat)
  | vcomplex (t : GoType) (re im : GoFloat)
  | vstring (t : GoType) (s : String)
  | vstruct (t : GoType) (fields : List GoValue)
  | vslice (t : GoType) (id : Nat) (elems : Option (List GoValue))
  | varray (t : GoType) (elems : List GoValue)
  | vmap (t : GoType) (id : Nat) (entries : Option (List (GoValue × GoValue)))
  | vptr (t : GoType) (id : Nat) (target : Option GoValue)
  | viface (t : GoType) (d1 d2 : Nat) (inner : Option GoValue)
  | vchan (t : GoType) (id : Nat)
  | vfunc (t : GoType) (id : Nat)
  | vunsafeptr (t : GoType) (id : Nat)

/-- The value's `Type()`.  `vinvalid` has no type in Go (`Type()` panics);
the engine never asks for it, so a dummy is returned. -/
def GoValue.typeOf : GoValue → GoType
  | .vinvalid => .tiface "" "invalid"
  | .vbool t _ => t
  | .vint t _ => t
  | .vuint t _ => t
  | .vfloat t _ => t
  | .vcomplex t _ _ => t
  | .vstring t _ => t
  | .vstruct t _ => t
  | .vslice t _ _ => t
  | .varray t _ => t
  | .vmap t _ _ => t
  | .vptr t _ _ => t
  | .viface t _ _ _ => t
  | .vchan t _ => t
  | .vfunc t _ => t
  | .vunsafeptr t _ => t

/-- A user-registered type formatter.  The source passes the value as an
`interface{}`; a formatter that panics is modelled by returning `none`
(the engine's deferred `recover` turns the panic into fallback). -/
abbrev GoFormatter := GoValue → Option String

/-- The `renderOptions` struct of the most complete variant. -/
structure RenderOptions where
  recursionPlaceholder : String
  typeFormatters : String → Option GoFormatter

/-- The `redactOptions` struct.  `maskingChar` is the byte string of the
encoded masking rune. -/
structure RedactOptions where
  active : Bool
  tag : String
  replacementPlaceholder : String
  maskingChar : String
  maskingLength : Int
  maskingReverse : Bool

/-- The `options` struct. -/
structure Options where
  render : RenderOptions
  redact : RedactOptions

/-- Default values from `marshaller.go`. -/
def DefaultRedactTag : String := "redact"

def DefaultReplacementPlaceholder : String := "redacted"

def DefaultRecursionPlaceholder : String := "recursive"

def DefaultMaskingChar : String := "#"

def DefaultMaskingLength : Int := 4

/-- Redact modes. -/
def REMOVE : String := "REMOVE"

def REPLACE : String := "REPLACE"

def MASK : String := "MASK"

def defaultRenderOptions : RenderOptions :=
  { recursionPlaceholder := DefaultRecursionPlaceholder
    typeFormatters := fun _ => none }

def defaultRedactOptions : RedactOptions :=
  { active := false
    tag := DefaultRedactTag
    replacementPlaceholder := DefaultReplacementPlaceholder
    maskingChar := DefaultMaskingChar
    maskingLength := DefaultMaskingLength
    maskingReverse := false }

/-- The options of `newDefaultMarshaller`. -/
def defaultOptions : Options :=
  { render := defaultRenderOptions, redact := defaultRedactOptions }

/-- `bytes.Repeat(c, n)`: the mask character repeated `n` times. -/
def maskRepeat (c : String) (n : Nat) : String :=
  String.join (List.replicate n c)

/-- Model of `MaskWriter.Write` from the most complete variant (the same
logic as the superseded `options.mask`): a write of content `p` through a
writer with flag `masked` and options `o`. -/
def maskWrite (o : RedactOptions) (masked : Bool) (p : String) : String :=
  if !o.active || !masked then p
  else if o.maskingLength < 0 || (p.length : Int) ≤ o.maskingLength then
    maskRepeat o.maskingChar p.length
  else if o.maskingReverse then
    String.mk (p.data.take (p.length - o.maskingLength.toNat)) ++
      maskRepeat o.maskingChar o.maskingLength.toNat
  else
    maskRepeat o.maskingChar o.maskingLength.toNat ++
      String.mk (p.data.drop o.maskingLength.toNat)

/-- One character of Go's `%q` escaping.  Control characters other than
the common escapes are abstracted (no concrete input below contains
them). -/
def goQuoteChar (c : Char) : String :=
  if c = '"' then "\\\""
  else if c = '\\' then "\\\\"
  else if c = '\n' then "\\n"
  else if c = '\t' then "\\t"
  else if c = '\r' then "\\r"
  else String.singleton c

/-- The inside of Go's `%q` form of a string (without the quotes). -/
def goQuoteInner (s : String) : String :=
  String.join (s.data.map goQuoteChar)

/-- Go's `%q` form of a string. -/
def goQuote (s : String) : String :=
  "\"" ++ goQuoteInner s ++ "\""

/-- A hexadecimal digit. -/
def hexDigit (n : Nat) : Char :=
  if n < 10 then Char.ofNat (48 + n) else Char.ofNat (87 + n)

/-- Nat to fixed-width hexadecimal digits (little aid for `%016x`). -/
def hexDigits : Nat → Nat → List Char
  | 0, _ => []
  | w + 1, n => hexDigits w (n / 16) ++ [hexDigit (n % 16)]

/-- The default `renderPointer` text `fmt.Sprintf("0x%016x", p)`. -/
def hex016 (p : Nat) : String :=
  "0x" ++ String.mk (hexDigits 16 p)

/-- Model of the boolean text `%v` of a bool. -/
def goBoolRepr (b : Bool) : String :=
  if b then "true" else "false"

/-- Decimal text of a signed integer (`%d`). -/
def goIntRepr (n : Int) : String := toString n

/-- Decimal text of an unsigned integer (`%d`). -/
def goUintRepr (n : Nat) : String := toString n

/-- Abstracted `%g` text of a float; exact for integers, and injective on
the modelled floats.  No claim depends on the exact float text. -/
def goFloatRepr : GoFloat → String
  | .nan => "NaN"
  | .fin q => if q.den = 1 then toString q.num
              else toString q.num ++ "/" ++ toString q.den

/-- Abstracted `%g` text of a complex number, `(re+imi)` shaped. -/
def goComplexRepr (re im : GoFloat) : String :=
  "(" ++ goFloatRepr re ++ "+" ++ goFloatRepr im ++ "i)"

/-- Model of `traverseState`: the chain of identities on the active path,
root (nil state) first at the tail.  `forkFor` returns `none` when the
identity is already on the chain and the extended chain otherwise. -/
def forkFor (s : List Nat) (ptr : Nat) : Option (List Nat) :=
  if ptr ∈ s then none else some (ptr :: s)

/-- The shared return pattern of the source comparators:
`if lt { return -1 } else if gt { return 1 }; return 0`. -/
def cmpOrder (lt gt : Bool) : Int :=
  if lt then -1 else if gt then 1 else 0

/-- `Value.String()` for string-kind values (`none` models the panic on
other kinds). -/
def GoValue.getString? : GoValue → Option String
  | .vstring _ s => some s
  | _ => none

/-- `Value.Bool()`. -/
def GoValue.getBool? : GoValue → Option Bool
  | .vbool _ b => some b
  | _ => none

/-- `Value.Int()`. -/
def GoValue.getInt? : GoValue → Option Int
  | .vint _ n => some n
  | _ => none

/-- `Value.Uint()`: defined on the uint kinds only.  In particular it
panics (here: `none`) on an unsafe.Pointer value, although `cmpForType`
groups UnsafePointer with the uint kinds. -/
def GoValue.getUint? : GoValue → Option Nat
  | .vuint _ n => some n
  | _ => none

/-- `Value.Float()`. -/
def GoValue.getFloat? : GoValue → Option GoFloat
  | .vfloat _ x => some x
  | _ => none

/-- `Value.Complex()`. -/
def GoValue.getComplex? : GoValue → Option (GoFloat × GoFloat)
  | .vcomplex _ re im => some (re, im)
  | _ => none

/-- `Value.InterfaceData()`. -/
def GoValue.ifaceData? : GoValue → Option (Nat × Nat)
  | .viface _ d1 d2 _ => some (d1, d2)
  | _ => none

/-- `Value.Pointer()` for the Ptr and Chan kinds the comparator uses. -/
def GoValue.pointerId? : GoValue → Option Nat
  | .vptr _ id _ => some id
  | .vchan _ id => some id
  | _ => none

/-- The struct fields of a struct value (`Value.Field(i)` for each i). -/
def GoValue.structVals : GoValue → List GoValue
  | .vstruct _ fs => fs
  | _ => []

/-- A comparator as produced by `cmpForType`; `none` as a result models a
Go panic inside the comparison. -/
abbrev Cmp := GoValue → GoValue → Option Int

/-- The loop of the struct comparator closure: compare field by field in
declaration order, first non-equal field decides.  Reaching a field whose
entry in `cmpLst` is nil calls a nil function in Go: modelled as `none`.
A field-count mismatch would make `Value.Field(i)` panic: also `none`. -/
def structCmpGo : List (Option Cmp) → List GoValue → List GoValue → Option Int
  | [], _, _ => some 0
  | c? :: cs, fa :: fas, fb :: fbs => do
      let c ← c?
      let r ← c fa fb
      if r = 0 then structCmpGo cs fas fbs else pure r
  | _ :: _, _, _ => none

/-- The struct comparator closure returned by `cmpForType`. -/
def structCmp (cs : List (Option Cmp)) : Cmp :=
  fun a b => structCmpGo cs a.structVals b.structVals

mutual

/-- Model of `cmpForType`: the comparator used to fix the output order of
map keys, or `none` for kinds with no case (in Go: a nil `cmpFn`). -/
def cmpForType : GoType → Option Cmp
  | .tstring _ _ => some fun av bv => do
      let a ← av.getString?
      let b ← bv.getString?
      pure (cmpOrder (goStrLt a.data b.data) (goStrLt b.data a.data))
  | .tbool _ _ => some fun av bv => do
      let a ← av.getBool?
      let b ← bv.getBool?
      pure (cmpOrder (!a && b) (a && !b))
  | .tint _ _ _ => some fun av bv => do
      let a ← av.getInt?
      let b ← bv.getInt?
      pure (cmpOrder (a < b) (b < a))
  | .tuint _ _ _ => some fun av bv => do
      let a ← av.getUint?
      let b ← bv.getUint?
      pure (cmpOrder (a < b) (b < a))
  | .tunsafeptr _ _ => some fun av bv => do
      let a ← av.getUint?
      let b ← bv.getUint?
      pure (cmpOrder (a < b) (b < a))
  | .tfloat _ _ _ => some fun av bv => do
      let a ← av.getFloat?
      let b ← bv.getFloat?
      pure (cmpOrder (a.blt b) (b.blt a))
  | .tiface _ _ => some fun av bv => do
      let a ← av.ifaceData?
      let b ← bv.ifaceData?
      pure (if a.1 < b.1 then -1 else if b.1 < a.1 then 1
            else cmpOrder (a.2 < b.2) (b.2 < a.2))
  | .tcomplex _ _ _ => some fun av bv => do
      let a ← av.getComplex?
      let b ← bv.getComplex?
      pure (if a.1.blt b.1 then -1 else if b.1.blt a.1 then 1
            else cmpOrder (a.2.blt b.2) (b.2.blt a.2))
  | .tptr _ => some fun av bv => do
      let a ← av.pointerId?
      let b ← bv.pointerId?
      pure (cmpOrder (a < b) (b < a))
  | .tchan _ _ => some fun av bv => do
      let a ← av.pointerId?
      let b ← bv.pointerId?
      pure (cmpOrder (a < b) (b < a))
  | .tstruct _ _ fields => some (structCmp (cmpFields fields))
  | _ => none

/-- The `cmpLst` construction of the struct case of `cmpForType`. -/
def cmpFields : List (String × GoTag × GoType) → List (Option Cmp)
  | [] => []
  | f :: tl => cmpForType f.2.2 :: cmpFields tl

end

/-- Monadic insertion of an entry into a key-sorted entry list; a `none`
comparison (a panicking `Less`) aborts the sort. -/
def insertByKeyM {β : Type} (c : Cmp) (p : GoValue × β) :
    List (GoValue × β) → Option (List (GoValue × β))
  | [] => some [p]
  | q :: tl => do
      let r ← c p.1 q.1
      if r < 0 then pure (p :: q :: tl)
      else do
        let tl' ← insertByKeyM c p tl
        pure (q :: tl')

/-- Sorting of map entries by key, modelling `sort.Sort` on the key slice
(the source sorts the keys and then reads `v.MapIndex(mk)` per key; the
model keeps each key's payload attached, which is the same association).
For a comparator that is total and tie-free on the keys this yields the
unique key-sorted permutation that `sort.Sort` also produces; a panic in
`Less` is modelled by `none`. -/
def sortByKeyM {β : Type} (c : Cmp) :
    List (GoValue × β) → Option (List (GoValue × β))
  | [] => some []
  | p :: tl => do
      let tl' ← sortByKeyM c tl
      insertByKeyM c p tl'

/-- Model of `tryAndSortMapKeys`: no comparator leaves the native order
untouched.  The `getD` fallback is only reached on executions where
`sort.Sort` would panic; `mapSortPanics` reports exactly those. -/
def tryAndSortMapKeys {β : Type} (kt : GoType) (l : List (GoValue × β)) :
    List (GoValue × β) :=
  match cmpForType kt with
  | none => l
  | some c => (sortByKeyM c l).getD l

/-- Whether sorting the keys of a map with key type `kt` and entries `l`
panics in Go (a nil comparator reached inside a struct comparison, or
`Value.Uint` applied to an unsafe.Pointer key). -/
def mapSortPanics {β : Type} (kt : GoType) (l : List (GoValue × β)) : Bool :=
  match cmpForType kt with
  | none => false
  | some c => (sortByKeyM c l).isNone

/-- The declared fields of a struct type. -/
def GoType.structFields : GoType → List (String × GoTag × GoType)
  | .tstruct _ _ fs => fs
  | _ => []

/-- Model of `options.callRegisteredTypeFormatter`.  A panicking formatter
(modelled by `f v = none`) is recovered by the deferred `recover` and the
function reports `formatted = false`; in the source every builder write of
this function happens after the formatter has returned successfully, so a
failed call leaves the output untouched — hence the pure `Option` model. -/
def callRegisteredTypeFormatter (o : Options) (ptrs : Nat) (vt : GoType)
    (v : GoValue) (implicit : Bool) : Option String :=
  match o.render.typeFormatters vt.tstr with
  | none => none
  | some f =>
    match f v with
    | none => none
    | some out =>
        some ((if implicit then "" else writeType ptrs vt) ++ "(" ++ out ++ ")")

/-- The identity recorded for cycle detection when entering a non-nil
pointer (`v.Pointer()` if the pointee is a struct or array, else 0). -/
def ptrCycleId (id : Nat) : GoValue → Nat
  | .vstruct _ _ => id
  | .varray _ _ => id
  | _ => 0

/-- The identity `pe` computed by `traverseState.render` before the kind
switch: pointers to structs/arrays, slices and maps record `v.Pointer()`,
everything else records 0 (no cycle tracking). -/
def cycleId : GoValue → Nat
  | .vptr _ id (some tgt) => ptrCycleId id tgt
  | .vslice _ id _ => id
  | .vmap _ id _ => id
  | _ => 0

/-- The `if pe != 0 { s = s.forkFor(pe); ... }` gate: identity 0 keeps the
chain, a non-zero identity must extend it, `none` meaning a detected
cycle. -/
def cycleGate (s : List Nat) (pe : Nat) : Option (List Nat) :=
  if pe = 0 then some s else forkFor s pe

/-- The recursion placeholder text
`"<" ++ placeholder ++ "(" ++ type-unless-implicit ++ ")>"`. -/
def recursionMark (o : Options) (ptrs : Nat) (t : GoType) (implicit : Bool) :
    String :=
  "<" ++ o.render.recursionPlaceholder ++ "(" ++
    (if implicit then "" else writeType ptrs t) ++ ")>"

/-- The early-return on a registered type formatter: formatted output if
the formatter is registered and succeeds, otherwise the default body. -/
def fmtOr (o : Options) (ptrs : Nat) (t : GoType) (v : GoValue)
    (implicit : Bool) (body : String) : String :=
  match callRegisteredTypeFormatter o ptrs t v implicit with
  | some out => out
  | none => body

/-- The `implicit` recomputation of the scalar default case:
`implicit = implicit || (ptrs == 0 && builtinTypeMap[vk] == tstr)`. -/
def scalarImplicit (implicit : Bool) (ptrs : Nat) (kindName tstr : String) :
    Bool :=
  implicit || (decide (ptrs = 0) && kindName == tstr)

/-- The scalar default case: strings are masked (when the writer is
masked) and then `%q`-quoted into the raw builder; other scalars are
written through the mask writer.  The type prefix and parentheses go to
the raw builder, never masked. -/
def scalarRender (o : Options) (ptrs : Nat) (t : GoType)
    (implicit masked : Bool) (isString : Bool) (content : String) : String :=
  let impl2 := scalarImplicit implicit ptrs t.kindBuiltinName t.tstr
  let body :=
    if isString then
      goQuote (if masked then maskWrite o.redact true content else content)
    else maskWrite o.redact masked content
  (if impl2 then "" else writeType ptrs t ++ "(") ++ body ++
    (if impl2 then "" else ")")

/-- The masked pointer-identity text written by `renderPointer` through
the mask writer. -/
def renderPointerOut (o : RedactOptions) (masked : Bool) (p : Nat) : String :=
  maskWrite o masked (hex016 p)

/-- Model of `options.isRemoved`. -/
def isRemoved (o : Options) (f : String × GoTag × GoType) : Bool :=
  match tagLookup f.2.1 o.redact.tag with
  | none => false
  | some tag => tag == REMOVE

/-- Model of `traverseState.redactField` minus its one recursive render
call: the MASK branch's rendering of the field with masking forced on is
received pre-computed in `maskedOut` (the call is pure, so computing it
eagerly at the call site is equivalent; this keeps the recursion of
`renderFields` structural).  The returned Bool is the source's return
value (`true` = field fully handled); the returned String is everything
the source wrote, which on the untagged-mode path (`false` with a present
but unrecognised tag) is a separator and field name that the caller then
duplicates, exactly as the source does. -/
def redactField (o : Options) (prev? : Option (String × GoTag × GoType))
    (d : String × GoTag × GoType) (anon masked : Bool) (maskedOut : String) :
    String × Bool :=
  match tagLookup d.2.1 o.redact.tag with
  | none => ("", false)
  | some tag =>
    if tag == REMOVE then ("", true)
    else
      let sep :=
        match prev? with
        | some p => if !isRemoved o p then ", " else ""
        | none => ""
      let nm := if !anon then d.1 ++ ":" else ""
      if tag == REPLACE then
        (sep ++ nm ++ "<" ++ o.redact.replacementPlaceholder ++ ">", true)
      else if tag == MASK || masked then
        (sep ++ nm ++ maskedOut, true)
      else
        (sep ++ nm, false)

/-- Comma-join of already-rendered map entries. -/
def joinComma : List String → String
  | [] => ""
  | [x] => x
  | x :: tl => x ++ ", " ++ joinComma tl

mutual

/-- Model of `traverseState.render` (the most complete variant):
`render(masker, ptrs, v, implicit, opts)` with the mask writer split into
the produced text and the `masked` flag.  Each constructor arm repeats
the source's early returns — the registered-formatter check (`fmtOr`) and,
for the cycle-tracked kinds, the `cycleGate` — before its kind's case. -/
def render (s : List Nat) (ptrs : Nat) (v : GoValue)
    (implicit masked : Bool) (o : Options) : String :=
  match v with
  | .vinvalid => "nil"
  | .vbool t b =>
      fmtOr o ptrs t (.vbool t b) implicit
        (scalarRender o ptrs t implicit masked false (goBoolRepr b))
  | .vint t n =>
      fmtOr o ptrs t (.vint t n) implicit
        (scalarRender o ptrs t implicit masked false (goIntRepr n))
  | .vuint t n =>
      fmtOr o ptrs t (.vuint t n) implicit
        (scalarRender o ptrs t implicit masked false (goUintRepr n))
  | .vfloat t x =>
      fmtOr o ptrs t (.vfloat t x) implicit
        (scalarRender o ptrs t implicit masked false (goFloatRepr x))
  | .vcomplex t re im =>
      fmtOr o ptrs t (.vcomplex t re im) implicit
        (scalarRender o ptrs t implicit masked false (goComplexRepr re im))
  | .vstring t str =>
      fmtOr o ptrs t (.vstring t str) implicit
        (scalarRender o ptrs t implicit masked true str)
  | .vstruct t fs =>
      fmtOr o ptrs t (.vstruct t fs) implicit
        ((if implicit then "" else writeType ptrs t) ++ "\x7b" ++
          renderFields s (t.tname == "") none t.structFields fs masked o ++
          "\x7d")
  | .vslice t id none =>
      fmtOr o ptrs t (.vslice t id none) implicit
        (match cycleGate s id with
         | none => recursionMark o ptrs t implicit
         | some _ =>
            if !implicit then writeType ptrs t ++ "(nil)" else "nil")
  | .vslice t id (some es) =>
      fmtOr o ptrs t (.vslice t id (some es)) implicit
        (match cycleGate s id with
         | none => recursionMark o ptrs t implicit
         | some s1 =>
            (if implicit then "" else writeType ptrs t) ++ "\x7b" ++
              renderElems s1 true (t.tname == "" && isAnon t.elemType) es
                masked o ++ "\x7d")
  | .varray t es =>
      fmtOr o ptrs t (.varray t es) implicit
        ((if implicit then "" else writeType ptrs t) ++ "\x7b" ++
          renderElems s true (t.tname == "" && isAnon t.elemType) es masked o
          ++ "\x7d")
  | .vmap t id none =>
      fmtOr o ptrs t (.vmap t id none) implicit
        (match cycleGate s id with
         | none => recursionMark o ptrs t implicit
         | some _ =>
            (if implicit then "" else writeType ptrs t) ++ "(nil)")
  | .vmap t id (some entries) =>
      fmtOr o ptrs t (.vmap t id (some entries)) implicit
        (match cycleGate s id with
         | none => recursionMark o ptrs t implicit
         | some s1 =>
            (if implicit then "" else writeType ptrs t) ++ "\x7b" ++
              joinComma
                ((tryAndSortMapKeys t.keyType
                    (renderEntryList s1 (keyConvAnon t.keyType)
                      (t.tname == "" && isAnon t.elemType) entries masked o)).map
                  Prod.snd) ++ "\x7d")
  | .vptr t id none =>
      fmtOr o ptrs t (.vptr t id none) implicit
        (writeType (ptrs + 1) t ++ "(nil)")
  | .vptr t id (some tgt) =>
      fmtOr o ptrs t (.vptr t id (some tgt)) implicit
        (match cycleGate s (ptrCycleId id tgt) with
         | none => recursionMark o ptrs t implicit
         | some s1 => render s1 (ptrs + 1) tgt false masked o)
  | .viface t d1 d2 none =>
      fmtOr o ptrs t (.viface t d1 d2 none) implicit
        (writeType ptrs t ++ "(nil)")
  | .viface t d1 d2 (some w) =>
      fmtOr o ptrs t (.viface t d1 d2 (some w)) implicit
        (render s ptrs w false masked o)
  | .vchan t id =>
      fmtOr o ptrs t (.vchan t id) implicit
        (writeType ptrs t ++ "(" ++ renderPointerOut o.redact masked id ++ ")")
  | .vfunc t id =>
      fmtOr o ptrs t (.vfunc t id) implicit
        (writeType ptrs t ++ "(" ++ renderPointerOut o.redact masked id ++ ")")
  | .vunsafeptr t id =>
      fmtOr o ptrs t (.vunsafeptr t id) implicit
        (writeType ptrs t ++ "(" ++ renderPointerOut o.redact masked id ++ ")")

/-- The struct-field loop of the struct case.  `prev?` is the previously
visited declared field (`vt.Field(i-1)`), driving the separator rule. -/
def renderFields (s : List Nat) (structAnon : Bool)
    (prev? : Option (String × GoTag × GoType))
    (ds : List (String × GoTag × GoType)) (vs : List GoValue)
    (masked : Bool) (o : Options) : String :=
  match ds, vs with
  | d :: ds', fv :: vs' =>
      let anon := structAnon && isAnon d.2.2
      let maskedOut := render s 0 fv anon true o
      let normal :=
        (match prev? with
         | some p => if !o.redact.active || !isRemoved o p then ", " else ""
         | none => "") ++
        (if !anon then d.1 ++ ":" else "") ++
        render s 0 fv anon masked o
      let head :=
        if o.redact.active then
          match redactField o prev? d anon masked maskedOut with
          | (out, true) => out
          | (out, false) => out ++ normal
        else normal
      head ++ renderFields s structAnon (some d) ds' vs' masked o
  | _, _ => ""

/-- The element loop of the slice/array case. -/
def renderElems (s : List Nat) (first : Bool) (anon : Bool)
    (es : List GoValue) (masked : Bool) (o : Options) : String :=
  match es with
  | [] => ""
  | e :: tl =>
      (if first then "" else ", ") ++ render s 0 e anon masked o ++
        renderElems s false anon tl masked o

/-- Per-entry rendering of a map: each entry `(k, v)` becomes
`(k, key-text ++ ":" ++ value-text)`.  The source sorts the keys first
and renders afterwards; as the rendered text of an entry does not depend
on its position, rendering first and sorting the rendered entries by key
produces the same output. -/
def renderEntryList (s : List Nat) (keyAnon valAnon : Bool)
    (entries : List (GoValue × GoValue)) (masked : Bool) (o : Options) :
    List (GoValue × String) :=
  match entries with
  | [] => []
  | (k, v) :: tl =>
      (k, render s 0 k keyAnon masked o ++ ":" ++
            render s 0 v valAnon masked o) ::
        renderEntryList s keyAnon valAnon tl masked o

end

/-- Model of `Marshaller.Render`.  `opts := m.options` copies the pointer,
so the write `opts.redact.active = false` mutates the marshaller's shared
options; the post-call options are returned alongside the text. -/
def marshallerRender (m : Options) (v : GoValue) : String × Options :=
  let opts : Options := { m with redact := { m.redact with active := false } }
  (render [] 0 v false false opts, opts)

/-- Model of `Marshaller.Redact`: same as `marshallerRender` but the
shared options are mutated with `opts.redact.active = true`. -/
def marshallerRedact (m : Options) (v : GoValue) : String × Options :=
  let opts : Options := { m with redact := { m.redact with active := true } }
  (render [] 0 v false false opts, opts)

/-! Order facts about the byte-lexicographic string comparison. -/

theorem goStrLt_irrefl (a : List Char) : goStrLt a a = false := by
  induction a with
  | nil => rfl
  | cons c tl ih => simp [goStrLt, ih]

theorem goStrLt_asymm {a b : List Char} (h : goStrLt a b = true) :
    goStrLt b a = false := by
  induction a generalizing b with
  | nil =>
    cases b with
    | nil => simp [goStrLt] at h
    | cons y ys => simp [goStrLt]
  | cons x xs ih =>
    cases b with
    | nil => simp [goStrLt] at h
    | cons y ys =>
      by_cases h1 : x.toNat < y.toNat
      · simp [goStrLt, h1, Nat.lt_asymm h1]
      · by_cases h2 : y.toNat < x.toNat
        · simp [goStrLt, h1, h2] at h
        · have hxy : ¬ y.toNat < x.toNat := h2
          simp [goStrLt, h1, h2] at h
          simp [goStrLt, h1, h2, ih h]

theorem goStrLt_eq_of_not {a b : List Char} (h1 : goStrLt a b = false)
    (h2 : goStrLt b a = false) : a = b := by
  induction a generalizing b with
  | nil =>
    cases b with
    | nil => rfl
    | cons y ys => simp [goStrLt] at h1
  | cons x xs ih =>
    cases b with
    | nil => simp [goStrLt] at h2
    | cons y ys =>
      by_cases hxy : x.toNat < y.toNat
      · simp [goStrLt, hxy] at h1
      · by_cases hyx : y.toNat < x.toNat
        · simp [goStrLt, hyx] at h2
        · have hx : x = y := by
            have hn : x.toNat = y.toNat := by omega
            exact Char.ext (UInt32.ext (by simpa [Char.toNat] using hn))
          subst hx
          simp [goStrLt, hxy, hyx] at h1 h2
          rw [ih h1 h2]

theorem goStrLt_trans {a b c : List Char} (h1 : goStrLt a b = true)
    (h2 : goStrLt b c = true) : goStrLt a c = true := by
  induction a generalizing b c with
  | nil =>
    cases c with
    | nil =>
      cases b with
      | nil => exact h1
      | cons y ys => simp [goStrLt] at h2
    | cons z zs => simp [goStrLt]
  | cons x xs ih =>
    cases b with
    | nil => simp [goStrLt] at h1
    | cons y ys =>
      cases c with
      | nil => simp [goStrLt] at h2
      | cons z zs =>
        by_cases hxy : x.toNat < y.toNat
        · by_cases hyz : y.toNat < z.toNat
          · simp [goStrLt]; omega
          · by_cases hzy : z.toNat < y.toNat
            · simp [goStrLt, hyz, hzy] at h2
            · have : y.toNat = z.toNat := by omega
              simp [goStrLt]; omega
        · by_cases hyx : y.toNat < x.toNat
          · simp [goStrLt, hxy, hyx] at h1
          · have hx : x.toNat = y.toNat := by omega
            simp [goStrLt, hxy, hyx] at h1
            by_cases hyz : y.toNat < z.toNat
            · simp [goStrLt]; omega
            · by_cases hzy : z.toNat < y.toNat
              · simp [goStrLt, hyz, hzy] at h2
              · simp [goStrLt, hyz, hzy] at h2
                simp [goStrLt, ih h1 h2]
                omega

/-! Soundness of the map-key canonicaliser.  `keyShaped t v` says that `v`
is a runtime value of key type `t` (the shapes the Go type system can
produce for a map key); `nanFreeKey v` excludes NaN floats; `cmpOk t`
delimits the key types on which `cmpForType`'s comparator is total. -/

mutual

/-- Well-shapedness of a value of a map-key type. -/
def keyShaped : GoType → GoValue → Bool
  | .tstring _ _, .vstring _ _ => true
  | .tbool _ _, .vbool _ _ => true
  | .tint _ _ _, .vint _ _ => true
  | .tuint _ _ _, .vuint _ _ => true
  | .tfloat _ _ _, .vfloat _ _ => true
  | .tcomplex _ _ _, .vcomplex _ _ _ => true
  | .tiface _ _, .viface _ _ _ _ => true
  | .tptr _, .vptr _ _ _ => true
  | .tchan _ _, .vchan _ _ => true
  | .tunsafeptr _ _, .vunsafeptr _ _ => true
  | .tarray _ _ _ _, .varray _ _ => true
  | .tstruct _ _ fs, .vstruct _ vs => keyShapedList fs vs
  | _, _ => false

def keyShapedList : List (String × GoTag × GoType) → List GoValue → Bool
  | [], [] => true
  | f :: fs, v :: vs => keyShaped f.2.2 v && keyShapedList fs vs
  | _, _ => false

end

mutual

/-- No NaN occurs in a comparator-visible position of a key. -/
def nanFreeKey : GoValue → Bool
  | .vfloat _ (.fin _) => true
  | .vfloat _ .nan => false
  | .vcomplex _ (.fin _) (.fin _) => true
  | .vcomplex _ _ _ => false
  | .vstruct _ vs => nanFreeKeyList vs
  | _ => true

def nanFreeKeyList : List GoValue → Bool
  | [] => true
  | v :: vs => nanFreeKey v && nanFreeKeyList vs

end

mutual

/-- The key types whose comparator compares totally and without panicking
(all comparator kinds except UnsafePointer, and structs thereof). -/
def cmpOk : GoType → Bool
  | .tstring _ _ => true
  | .tbool _ _ => true
  | .tint _ _ _ => true
  | .tuint _ _ _ => true
  | .tfloat _ _ _ => true
  | .tcomplex _ _ _ => true
  | .tiface _ _ => true
  | .tptr _ => true
  | .tchan _ _ => true
  | .tstruct _ _ fs => cmpOkFields fs
  | _ => false

def cmpOkFields : List (String × GoTag × GoType) → Bool
  | [] => true
  | f :: fs => cmpOk f.2.2 && cmpOkFields fs

end

/-- The comparison of two keys of type `t`, through `cmpForType`. -/
def cmpVal (t : GoType) (a b : GoValue) : Option Int :=
  match cmpForType t with
  | none => none
  | some c => c a b

theorem cmpOrder_flip (lt gt : Bool) (h : lt = true → gt = true → False) :
    cmpOrder gt lt = -(cmpOrder lt gt) := by
  cases lt <;> cases gt <;> simp_all [cmpOrder]

theorem cmpOrder_eq_zero {lt gt : Bool} :
    cmpOrder lt gt = 0 ↔ lt = false ∧ gt = false := by
  cases lt <;> cases gt <;> simp [cmpOrder]

theorem cmpOrder_lt_zero {lt gt : Bool} (h : lt = true → gt = true → False) :
    cmpOrder lt gt < 0 ↔ lt = true := by
  cases lt <;> cases gt <;> simp_all [cmpOrder]

theorem ratBlt_iff {a b : ℚ} : Rat.blt a b = true ↔ a < b := Iff.rfl

/-- The value's own NaN-freeness (for floats). -/
def GoFloat.nanFree : GoFloat → Bool
  | .nan => false
  | .fin _ => true

theorem GoFloat.blt_asymm {a b : GoFloat} :
    a.blt b = true → b.blt a = true → False := by
  cases a <;> cases b <;> simp [GoFloat.blt, ratBlt_iff]
  exact fun h => le_of_lt h

theorem GoFloat.blt_trans {a b c : GoFloat} (h1 : a.blt b = true)
    (h2 : b.blt c = true) : a.blt c = true := by
  cases a <;> cases b <;> cases c <;>
    simp only [GoFloat.blt, ratBlt_iff] at h1 h2 ⊢ <;>
    first
      | exact Bool.noConfusion h1
      | exact Bool.noConfusion h2
      | exact ratBlt_iff.mpr (lt_trans (ratBlt_iff.mp h1) (ratBlt_iff.mp h2))

theorem GoFloat.eq_of_not_blt {a b : GoFloat} (hna : a.nanFree = true)
    (hnb : b.nanFree = true) (h1 : a.blt b = false) (h2 : b.blt a = false) :
    a = b := by
  cases a with
  | nan => simp [GoFloat.nanFree] at hna
  | fin p =>
    cases b with
    | nan => simp [GoFloat.nanFree] at hnb
    | fin q =>
      have hp : Rat.blt p q = false := by simpa [GoFloat.blt] using h1
      have hq : Rat.blt q p = false := by simpa [GoFloat.blt] using h2
      have hp' : ¬ p < q := by rw [← ratBlt_iff]; simp [hp]
      have hq' : ¬ q < p := by rw [← ratBlt_iff]; simp [hq]
      rw [le_antisymm (not_lt.mp hq') (not_lt.mp hp')]

/-- A shorthand for the well-formedness of a key of type `t`. -/
def okKey (t : GoType) (v : GoValue) : Bool := keyShaped t v && nanFreeKey v

/-! Evaluation of `cmpVal` on shaped values, and comparator soundness. -/

theorem cmpVal_string_eval (k s : String) (t1 t2 : GoType) (a b : String) :
    cmpVal (.tstring k s) (.vstring t1 a) (.vstring t2 b)
      = some (cmpOrder (goStrLt a.data b.data) (goStrLt b.data a.data)) := rfl

theorem cmpVal_bool_eval (k s : String) (t1 t2 : GoType) (a b : Bool) :
    cmpVal (.tbool k s) (.vbool t1 a) (.vbool t2 b)
      = some (cmpOrder (!a && b) (a && !b)) := rfl

theorem cmpVal_int_eval (kd k s : String) (t1 t2 : GoType) (a b : Int) :
    cmpVal (.tint kd k s) (.vint t1 a) (.vint t2 b)
      = some (cmpOrder (a < b) (b < a)) := rfl

theorem cmpVal_uint_eval (kd k s : String) (t1 t2 : GoType) (a b : Nat) :
    cmpVal (.tuint kd k s) (.vuint t1 a) (.vuint t2 b)
      = some (cmpOrder (a < b) (b < a)) := rfl

theorem cmpVal_float_eval (kd k s : String) (t1 t2 : GoType) (a b : GoFloat) :
    cmpVal (.tfloat kd k s) (.vfloat t1 a) (.vfloat t2 b)
      = some (cmpOrder (a.blt b) (b.blt a)) := rfl

theorem cmpVal_iface_eval (k s : String) (t1 t2 : GoType)
    (a1 a2 b1 b2 : Nat) (w1 w2 : Option GoValue) :
    cmpVal (.tiface k s) (.viface t1 a1 a2 w1) (.viface t2 b1 b2 w2)
      = some (if a1 < b1 then -1 else if b1 < a1 then 1
              else cmpOrder (a2 < b2) (b2 < a2)) := rfl

theorem cmpVal_complex_eval (kd k s : String) (t1 t2 : GoType)
    (a1 a2 b1 b2 : GoFloat) :
    cmpVal (.tcomplex kd k s) (.vcomplex t1 a1 a2) (.vcomplex t2 b1 b2)
      = some (if a1.blt b1 then -1 else if b1.blt a1 then 1
              else cmpOrder (a2.blt b2) (b2.blt a2)) := rfl

theorem cmpVal_ptr_eval (e : GoType) (t1 t2 : GoType) (i1 i2 : Nat)
    (w1 w2 : Option GoValue) :
    cmpVal (.tptr e) (.vptr t1 i1 w1) (.vptr t2 i2 w2)
      = some (cmpOrder (i1 < i2) (i2 < i1)) := rfl

theorem cmpVal_chan_eval (k s : String) (t1 t2 : GoType) (i1 i2 : Nat) :
    cmpVal (.tchan k s) (.vchan t1 i1) (.vchan t2 i2)
      = some (cmpOrder (i1 < i2) (i2 < i1)) := rfl

theorem cmpVal_struct_eval (k s : String)
    (fs : List (String × GoTag × GoType)) (a b : GoValue) :
    cmpVal (.tstruct k s fs) a b
      = structCmpGo (cmpFields fs) a.structVals b.structVals := rfl

theorem strFlipCond (x y : List Char) :
    goStrLt x y = true → goStrLt y x = true → False := by
  intro h1 h2
  rw [goStrLt_asymm h1] at h2
  exact Bool.noConfusion h2

theorem boolFlipCond (a b : Bool) :
    (!a && b) = true → (a && !b) = true → False := by
  cases a <;> cases b <;> simp

theorem boolCmp_antisym (x y : Bool) :
    cmpOrder (!y && x) (y && !x) = -(cmpOrder (!x && y) (x && !y)) := by
  cases x <;> cases y <;> rfl

theorem decideLtFlip {α : Type} [LinearOrder α] (x y : α) :
    decide (x < y) = true → decide (y < x) = true → False := by
  simp only [decide_eq_true_eq]
  exact fun h1 h2 => lt_asymm h1 h2

theorem natpair_cmp_antisym (a1 a2 b1 b2 : Nat) :
    (if b1 < a1 then (-1 : Int) else if a1 < b1 then 1
      else cmpOrder (b2 < a2) (a2 < b2))
    = -(if a1 < b1 then (-1 : Int) else if b1 < a1 then 1
      else cmpOrder (a2 < b2) (b2 < a2)) := by
  rcases Nat.lt_trichotomy a1 b1 with h | h | h
  · simp [h, Nat.lt_asymm h]
  · subst h
    simp only [Nat.lt_irrefl, if_false]
    exact cmpOrder_flip _ _ (decideLtFlip a2 b2)
  · simp [h, Nat.lt_asymm h]

theorem floatpair_cmp_antisym (a1 a2 b1 b2 : GoFloat) :
    (if b1.blt a1 then (-1 : Int) else if a1.blt b1 then 1
      else cmpOrder (b2.blt a2) (a2.blt b2))
    = -(if a1.blt b1 then (-1 : Int) else if b1.blt a1 then 1
      else cmpOrder (a2.blt b2) (b2.blt a2)) := by
  by_cases h1 : a1.blt b1 = true
  · have h2 : b1.blt a1 = false := by
      by_contra hc
      exact GoFloat.blt_asymm h1 (by revert hc; cases b1.blt a1 <;> simp)
    simp [h1, h2]
  · by_cases h2 : b1.blt a1 = true
    · simp [h1, h2]
    · simp only [Bool.not_eq_true] at h1 h2
      simp only [h1, h2, Bool.false_eq_true, if_false]
      exact cmpOrder_flip _ _ (fun x y => GoFloat.blt_asymm x y)

theorem cmpForType_isSome_of_ok (t : GoType) (hok : cmpOk t = true) :
    ∃ c, cmpForType t = some c := by
  cases t <;> simp [cmpForType, cmpOk] at hok ⊢

mutual

theorem cmpVal_antisym (t : GoType) (a b : GoValue) (hok : cmpOk t = true)
    (hsa : keyShaped t a = true) (hna : nanFreeKey a = true)
    (hsb : keyShaped t b = true) (hnb : nanFreeKey b = true) :
    ∃ i : Int, cmpVal t a b = some i ∧ cmpVal t b a = some (-i) := by
  cases t with
  | tstring k s =>
      cases a <;> simp [keyShaped] at hsa
      cases b <;> simp [keyShaped] at hsb
      refine ⟨_, cmpVal_string_eval .., ?_⟩
      rw [cmpVal_string_eval, cmpOrder_flip _ _ (strFlipCond _ _)]
  | tbool k s =>
      cases a <;> simp [keyShaped] at hsa
      cases b <;> simp [keyShaped] at hsb
      refine ⟨_, cmpVal_bool_eval .., ?_⟩
      rw [cmpVal_bool_eval]
      exact congrArg some (boolCmp_antisym _ _)
  | tint kd k s =>
      cases a <;> simp [keyShaped] at hsa
      cases b <;> simp [keyShaped] at hsb
      refine ⟨_, cmpVal_int_eval .., ?_⟩
      rw [cmpVal_int_eval, cmpOrder_flip _ _ (decideLtFlip _ _)]
  | tuint kd k s =>
      cases a <;> simp [keyShaped] at hsa
      cases b <;> simp [keyShaped] at hsb
      refine ⟨_, cmpVal_uint_eval .., ?_⟩
      rw [cmpVal_uint_eval, cmpOrder_flip _ _ (decideLtFlip _ _)]
  | tfloat kd k s =>
      cases a <;> simp [keyShaped] at hsa
      cases b <;> simp [keyShaped] at hsb
      refine ⟨_, cmpVal_float_eval .., ?_⟩
      rw [cmpVal_float_eval, cmpOrder_flip _ _ (fun x y => GoFloat.blt_asymm x y)]
  | tcomplex kd k s =>
      cases a <;> simp [keyShaped] at hsa
      cases b <;> simp [keyShaped] at hsb
      refine ⟨_, cmpVal_complex_eval .., ?_⟩
      rw [cmpVal_complex_eval, floatpair_cmp_antisym]
  | tiface k s =>
      cases a <;> simp [keyShaped] at hsa
      cases b <;> simp [keyShaped] at hsb
      refine ⟨_, cmpVal_iface_eval .., ?_⟩
      rw [cmpVal_iface_eval, natpair_cmp_antisym]
  | tptr e =>
      cases a <;> simp [keyShaped] at hsa
      cases b <;> simp [keyShaped] at hsb
      refine ⟨_, cmpVal_ptr_eval .., ?_⟩
      rw [cmpVal_ptr_eval, cmpOrder_flip _ _ (decideLtFlip _ _)]
  | tchan k s =>
      cases a <;> simp [keyShaped] at hsa
      cases b <;> simp [keyShaped] at hsb
      refine ⟨_, cmpVal_chan_eval .., ?_⟩
      rw [cmpVal_chan_eval, cmpOrder_flip _ _ (decideLtFlip _ _)]
  | tstruct k s fs =>
      cases a with
      | vstruct t1 vs1 =>
        cases b with
        | vstruct t2 vs2 =>
          rw [cmpVal_struct_eval, cmpVal_struct_eval]
          exact structCmpGo_antisym fs vs1 vs2 (by simpa [cmpOk] using hok)
            (by simpa [keyShaped] using hsa) (by simpa [nanFreeKey] using hna)
            (by simpa [keyShaped] using hsb) (by simpa [nanFreeKey] using hnb)
        | _ => simp [keyShaped] at hsb
      | _ => simp [keyShaped] at hsa
  | tarray len k s e => simp [cmpOk] at hok
  | tslice k s e => simp [cmpOk] at hok
  | tmap k s ke e => simp [cmpOk] at hok
  | tfunc k s => simp [cmpOk] at hok
  | tunsafeptr k s => simp [cmpOk] at hok

theorem structCmpGo_antisym (fs : List (String × GoTag × GoType))
    (as bs : List GoValue) (hok : cmpOkFields fs = true)
    (hsa : keyShapedList fs as = true) (hna : nanFreeKeyList as = true)
    (hsb : keyShapedList fs bs = true) (hnb : nanFreeKeyList bs = true) :
    ∃ i : Int, structCmpGo (cmpFields fs) as bs = some i ∧
      structCmpGo (cmpFields fs) bs as = some (-i) := by
  cases fs with
  | nil => exact ⟨0, rfl, rfl⟩
  | cons f fs' =>
    cases as with
    | nil => simp [keyShapedList] at hsa
    | cons a as' =>
      cases bs with
      | nil => simp [keyShapedList] at hsb
      | cons b bs' =>
        have hok' := hok
        simp only [cmpOkFields, Bool.and_eq_true] at hok'
        simp only [keyShapedList, Bool.and_eq_true] at hsa hsb
        simp only [nanFreeKeyList, Bool.and_eq_true] at hna hnb
        obtain ⟨i, hi1, hi2⟩ :=
          cmpVal_antisym f.2.2 a b hok'.1 hsa.1 hna.1 hsb.1 hnb.1
        obtain ⟨c, hc⟩ := cmpForType_isSome_of_ok f.2.2 hok'.1
        have hcab : c a b = some i := by
          simpa [cmpVal, hc] using hi1
        have hcba : c b a = some (-i) := by
          simpa [cmpVal, hc] using hi2
        by_cases hz : i = 0
        · subst hz
          obtain ⟨j, hj1, hj2⟩ :=
            structCmpGo_antisym fs' as' bs' hok'.2 hsa.2 hna.2 hsb.2 hnb.2
          refine ⟨j, ?_, ?_⟩
          · simp [cmpFields, structCmpGo, hc, hcab, hj1]
          · simp [cmpFields, structCmpGo, hc, Option.bind]
            simpa [hcba] using hj2
        · refine ⟨i, ?_, ?_⟩
          · simp [cmpFields, structCmpGo, hc, hcab, hz]
          · have hz' : -i ≠ 0 := by omega
            simp [cmpFields, structCmpGo, hc, hcba, hz']

end

theorem cmpOrder_zero_iff {lt gt : Bool} :
    cmpOrder lt gt = 0 ↔ lt = false ∧ gt = false := by
  cases lt <;> cases gt <;> simp [cmpOrder]

mutual

theorem cmpVal_zero_compose (t : GoType) (a b x : GoValue)
    (hok : cmpOk t = true)
    (hsa : keyShaped t a = true) (hna : nanFreeKey a = true)
    (hsb : keyShaped t b = true) (hnb : nanFreeKey b = true)
    (h : cmpVal t a b = some 0) :
    cmpVal t b x = cmpVal t a x := by
  cases t with
  | tstring k s =>
      cases a <;> simp [keyShaped] at hsa
      cases b <;> simp [keyShaped] at hsb
      rw [cmpVal_string_eval] at h
      have h0 := cmpOrder_zero_iff.mp (by simpa using h)
      rename_i s1 t2 s2
      have hd : s1.data = s2.data := goStrLt_eq_of_not h0.1 h0.2
      have : s1 = s2 := by
        cases s1
        cases s2
        exact congrArg String.mk (by simpa using hd)
      subst this
      rfl
  | tbool k s =>
      cases a <;> simp [keyShaped] at hsa
      cases b <;> simp [keyShaped] at hsb
      rw [cmpVal_bool_eval] at h
      have h0 := cmpOrder_zero_iff.mp (by simpa using h)
      rename_i x1 t2 x2
      have : x1 = x2 := by
        revert h0; cases x1 <;> cases x2 <;> simp
      subst this
      rfl
  | tint kd k s =>
      cases a <;> simp [keyShaped] at hsa
      cases b <;> simp [keyShaped] at hsb
      rw [cmpVal_int_eval] at h
      have h0 := cmpOrder_zero_iff.mp (by simpa using h)
      rename_i n1 t2 n2
      simp only [decide_eq_false_iff_not, not_lt] at h0
      have : n1 = n2 := le_antisymm h0.2 h0.1
      subst this
      rfl
  | tuint kd k s =>
      cases a <;> simp [keyShaped] at hsa
      cases b <;> simp [keyShaped] at hsb
      rw [cmpVal_uint_eval] at h
      have h0 := cmpOrder_zero_iff.mp (by simpa using h)
      rename_i n1 t2 n2
      simp only [decide_eq_false_iff_not, not_lt] at h0
      have : n1 = n2 := le_antisymm h0.2 h0.1
      subst this
      rfl
  | tfloat kd k s =>
      cases a <;> simp [keyShaped] at hsa
      cases b <;> simp [keyShaped] at hsb
      rw [cmpVal_float_eval] at h
      have h0 := cmpOrder_zero_iff.mp (by simpa using h)
      rename_i f1 t2 f2
      have hn1 : f1.nanFree = true := by
        revert hna; cases f1 <;> simp [nanFreeKey, GoFloat.nanFree]
      have hn2 : f2.nanFree = true := by
        revert hnb; cases f2 <;> simp [nanFreeKey, GoFloat.nanFree]
      have : f1 = f2 := GoFloat.eq_of_not_blt hn1 hn2 h0.1 h0.2
      subst this
      rfl
  | tcomplex kd k s =>
      cases a <;> simp [keyShaped] at hsa
      cases b <;> simp [keyShaped] at hsb
      rw [cmpVal_complex_eval] at h
      rename_i f1 f2 t2 g1 g2
      have hn1 : f1.nanFree = true ∧ f2.nanFree = true := by
        revert hna; cases f1 <;> cases f2 <;>
          simp [nanFreeKey, GoFloat.nanFree]
      have hn2 : g1.nanFree = true ∧ g2.nanFree = true := by
        revert hnb; cases g1 <;> cases g2 <;>
          simp [nanFreeKey, GoFloat.nanFree]
      by_cases h1 : f1.blt g1 = true
      · simp [h1] at h
      · by_cases h2 : g1.blt f1 = true
        · simp [h1, h2] at h
        · simp only [Bool.not_eq_true] at h1 h2
          simp only [h1, h2, Bool.false_eq_true, if_false, Option.some_inj] at h
          have h0 := cmpOrder_zero_iff.mp h
          have e1 : f1 = g1 := GoFloat.eq_of_not_blt hn1.1 hn2.1 h1 h2
          have e2 : f2 = g2 := GoFloat.eq_of_not_blt hn1.2 hn2.2 h0.1 h0.2
          subst e1; subst e2
          rfl
  | tiface k s =>
      cases a <;> simp [keyShaped] at hsa
      cases b <;> simp [keyShaped] at hsb
      rw [cmpVal_iface_eval] at h
      rename_i d1 d2 w1 t2 e1 e2 w2
      have hd : d1 = e1 ∧ d2 = e2 := by
        rcases Nat.lt_trichotomy d1 e1 with hlt | heq | hgt
        · simp [hlt] at h
        · subst heq
          simp only [Nat.lt_irrefl, if_false, Option.some_inj] at h
          have h0 := cmpOrder_zero_iff.mp h
          simp only [decide_eq_false_iff_not, not_lt] at h0
          exact ⟨rfl, le_antisymm h0.2 h0.1⟩
        · simp [hgt, Nat.lt_asymm hgt] at h
      obtain ⟨rfl, rfl⟩ := hd
      rfl
  | tptr e =>
      cases a <;> simp [keyShaped] at hsa
      cases b <;> simp [keyShaped] at hsb
      rw [cmpVal_ptr_eval] at h
      have h0 := cmpOrder_zero_iff.mp (by simpa using h)
      rename_i i1 w1 t2 i2 w2
      simp only [decide_eq_false_iff_not, not_lt] at h0
      have : i1 = i2 := le_antisymm h0.2 h0.1
      subst this
      rfl
  | tchan k s =>
      cases a <;> simp [keyShaped] at hsa
      cases b <;> simp [keyShaped] at hsb
      rw [cmpVal_chan_eval] at h
      have h0 := cmpOrder_zero_iff.mp (by simpa using h)
      rename_i i1 t2 i2
      simp only [decide_eq_false_iff_not, not_lt] at h0
      have : i1 = i2 := le_antisymm h0.2 h0.1
      subst this
      rfl
  | tstruct k s fs =>
      cases a with
      | vstruct t1 vs1 =>
        cases b with
        | vstruct t2 vs2 =>
          rw [cmpVal_struct_eval] at h
          rw [cmpVal_struct_eval, cmpVal_struct_eval]
          exact structCmpGo_zero_compose fs vs1 vs2 x.structVals
            (by simpa [cmpOk] using hok)
            (by simpa [keyShaped] using hsa) (by simpa [nanFreeKey] using hna)
            (by simpa [keyShaped] using hsb) (by simpa [nanFreeKey] using hnb)
            h
        | _ => simp [keyShaped] at hsb
      | _ => simp [keyShaped] at hsa
  | tarray len k s e => simp [cmpOk] at hok
  | tslice k s e => simp [cmpOk] at hok
  | tmap k s ke e => simp [cmpOk] at hok
  | tfunc k s => simp [cmpOk] at hok
  | tunsafeptr k s => simp [cmpOk] at hok

theorem structCmpGo_zero_compose (fs : List (String × GoTag × GoType))
    (as bs xs : List GoValue) (hok : cmpOkFields fs = true)
    (hsa : keyShapedList fs as = true) (hna : nanFreeKeyList as = true)
    (hsb : keyShapedList fs bs = true) (hnb : nanFreeKeyList bs = true)
    (h : structCmpGo (cmpFields fs) as bs = some 0) :
    structCmpGo (cmpFields fs) bs xs = structCmpGo (cmpFields fs) as xs := by
  cases fs with
  | nil => rfl
  | cons f fs' =>
    cases as with
    | nil => simp [keyShapedList] at hsa
    | cons a as' =>
      cases bs with
      | nil => simp [keyShapedList] at hsb
      | cons b bs' =>
        simp only [cmpOkFields, Bool.and_eq_true] at hok
        simp only [keyShapedList, Bool.and_eq_true] at hsa hsb
        simp only [nanFreeKeyList, Bool.and_eq_true] at hna hnb
        obtain ⟨c, hc⟩ := cmpForType_isSome_of_ok f.2.2 hok.1
        -- extract that the head comparison was zero
        have hhead : c a b = some 0 ∧
            structCmpGo (cmpFields fs') as' bs' = some 0 := by
          obtain ⟨i, hi1, hi2⟩ :=
            cmpVal_antisym f.2.2 a b hok.1 hsa.1 hna.1 hsb.1 hnb.1
          have hcab : c a b = some i := by simpa [cmpVal, hc] using hi1
          by_cases hz : i = 0
          · subst hz
            refine ⟨hcab, ?_⟩
            simpa [cmpFields, structCmpGo, hc, hcab] using h
          · exfalso
            have : structCmpGo (cmpFields (f :: fs')) (a :: as') (b :: bs')
                = some i := by
              simp [cmpFields, structCmpGo, hc, hcab, hz]
            rw [h] at this
            exact hz (by simpa using this.symm)
        cases xs with
        | nil => rfl
        | cons y ys =>
          have hfield : cmpVal f.2.2 b y = cmpVal f.2.2 a y :=
            cmpVal_zero_compose f.2.2 a b y hok.1 hsa.1 hna.1 hsb.1 hnb.1
              (by simpa [cmpVal, hc] using hhead.1)
          have hcy : c b y = c a y := by simpa [cmpVal, hc] using hfield
          have htail := structCmpGo_zero_compose fs' as' bs' ys hok.2
            hsa.2 hna.2 hsb.2 hnb.2 hhead.2
          simp only [cmpFields, structCmpGo, hc, Option.bind_eq_bind,
            Option.some_bind, hcy, htail]

end

theorem cmpOrder_neg_iff {lt gt : Bool} : cmpOrder lt gt < 0 ↔ lt = true := by
  cases lt <;> cases gt <;> simp [cmpOrder]

/-- The rational content of a NaN-free float. -/
def GoFloat.q : GoFloat → ℚ
  | .nan => 0
  | .fin x => x

theorem GoFloat.blt_iff_q {a b : GoFloat} (ha : a.nanFree = true)
    (hb : b.nanFree = true) : a.blt b = true ↔ a.q < b.q := by
  cases a <;> cases b <;>
    simp_all [GoFloat.blt, GoFloat.nanFree, GoFloat.q, ratBlt_iff]

theorem natpair_cmp_neg_iff (a1 a2 b1 b2 : Nat) :
    ((if a1 < b1 then (-1 : Int) else if b1 < a1 then 1
        else cmpOrder (a2 < b2) (b2 < a2)) < 0)
      ↔ (a1 < b1 ∨ (a1 = b1 ∧ a2 < b2)) := by
  rcases Nat.lt_trichotomy a1 b1 with h | h | h
  · simp [h]
  · subst h
    simp [Nat.lt_irrefl, cmpOrder_neg_iff]
  · simp [h, Nat.lt_asymm h]
    omega

theorem nanFreeKey_float_inv {t : GoType} {x : GoFloat}
    (h : nanFreeKey (.vfloat t x) = true) : x.nanFree = true := by
  cases x <;> simp [nanFreeKey, GoFloat.nanFree] at h ⊢

theorem nanFreeKey_complex_inv {t : GoType} {re im : GoFloat}
    (h : nanFreeKey (.vcomplex t re im) = true) :
    re.nanFree = true ∧ im.nanFree = true := by
  cases re <;> cases im <;> simp [nanFreeKey, GoFloat.nanFree] at h ⊢

theorem structCmpGo_cons_inv {c : Cmp} {cs : List (Option Cmp)}
    {a b : GoValue} {as bs : List GoValue} {i : Int}
    (h : structCmpGo (some c :: cs) (a :: as) (b :: bs) = some i) :
    (c a b = some 0 ∧ structCmpGo cs as bs = some i) ∨
      (c a b = some i ∧ i ≠ 0) := by
  cases hr : c a b with
  | none => simp [structCmpGo, hr] at h
  | some r =>
    by_cases hz : r = 0
    · subst hz
      left
      refine ⟨rfl, ?_⟩
      simpa [structCmpGo, hr] using h
    · right
      have hsome : some r = some i := by
        simpa [structCmpGo, hr, hz] using h
      have hri : r = i := by simpa using hsome
      subst hri
      exact ⟨rfl, hz⟩

/-- Strict transitivity of the key comparator, proven for types and field
lists simultaneously by strong induction on size. -/
theorem cmpLtTransAux : ∀ N : Nat,
    (∀ t : GoType, sizeOf t ≤ N → ∀ a b x : GoValue, cmpOk t = true →
      keyShaped t a = true → nanFreeKey a = true →
      keyShaped t b = true → nanFreeKey b = true →
      keyShaped t x = true → nanFreeKey x = true →
      (∃ i, cmpVal t a b = some i ∧ i < 0) →
      (∃ j, cmpVal t b x = some j ∧ j < 0) →
      ∃ k, cmpVal t a x = some k ∧ k < 0) ∧
    (∀ fs : List (String × GoTag × GoType), sizeOf fs ≤ N →
      ∀ as bs xs : List GoValue, cmpOkFields fs = true →
      keyShapedList fs as = true → nanFreeKeyList as = true →
      keyShapedList fs bs = true → nanFreeKeyList bs = true →
      keyShapedList fs xs = true → nanFreeKeyList xs = true →
      (∃ i, structCmpGo (cmpFields fs) as bs = some i ∧ i < 0) →
      (∃ j, structCmpGo (cmpFields fs) bs xs = some j ∧ j < 0) →
      ∃ k, structCmpGo (cmpFields fs) as xs = some k ∧ k < 0) := by
  intro N
  induction N with
  | zero =>
    constructor
    · intro t ht
      exact absurd ht (by cases t <;> simp)
    · intro fs hfs
      exact absurd hfs (by cases fs <;> simp)
  | succ n ihN =>
    have ihL : ∀ fs : List (String × GoTag × GoType), sizeOf fs ≤ n →
        ∀ as bs xs : List GoValue, cmpOkFields fs = true →
        keyShapedList fs as = true → nanFreeKeyList as = true →
        keyShapedList fs bs = true → nanFreeKeyList bs = true →
        keyShapedList fs xs = true → nanFreeKeyList xs = true →
        (∃ i, structCmpGo (cmpFields fs) as bs = some i ∧ i < 0) →
        (∃ j, structCmpGo (cmpFields fs) bs xs = some j ∧ j < 0) →
        ∃ k, structCmpGo (cmpFields fs) as xs = some k ∧ k < 0 := ihN.2
    have ihV : ∀ t : GoType, sizeOf t ≤ n → ∀ a b x : GoValue,
        cmpOk t = true →
        keyShaped t a = true → nanFreeKey a = true →
        keyShaped t b = true → nanFreeKey b = true →
        keyShaped t x = true → nanFreeKey x = true →
        (∃ i, cmpVal t a b = some i ∧ i < 0) →
        (∃ j, cmpVal t b x = some j ∧ j < 0) →
        ∃ k, cmpVal t a x = some k ∧ k < 0 := ihN.1
    have ihL' := ihL
    constructor
    · intro t ht a b x hok hsa hna hsb hnb hsx hnx h1 h2
      cases t with
      | tstring k s =>
          cases a <;> simp [keyShaped] at hsa
          cases b <;> simp [keyShaped] at hsb
          cases x <;> simp [keyShaped] at hsx
          rename_i s1 tb s2 tx s3
          obtain ⟨i, hi, hineg⟩ := h1
          obtain ⟨j, hj, hjneg⟩ := h2
          rw [cmpVal_string_eval] at hi
          rw [cmpVal_string_eval] at hj
          have l1 : goStrLt s1.data s2.data = true := by
            have := cmpOrder_neg_iff.mp (by rw [← Option.some_inj.mp hi] at hineg; exact hineg)
            exact this
          have l2 : goStrLt s2.data s3.data = true := by
            have := cmpOrder_neg_iff.mp (by rw [← Option.some_inj.mp hj] at hjneg; exact hjneg)
            exact this
          refine ⟨_, cmpVal_string_eval .., ?_⟩
          simp [cmpOrder, goStrLt_trans l1 l2]
      | tbool k s =>
          cases a <;> simp [keyShaped] at hsa
          cases b <;> simp [keyShaped] at hsb
          cases x <;> simp [keyShaped] at hsx
          rename_i x1 tb x2 tx x3
          obtain ⟨i, hi, hineg⟩ := h1
          obtain ⟨j, hj, hjneg⟩ := h2
          rw [cmpVal_bool_eval] at hi
          rw [cmpVal_bool_eval] at hj
          have l1 : (!x1 && x2) = true := by
            exact cmpOrder_neg_iff.mp (by rw [← Option.some_inj.mp hi] at hineg; exact hineg)
          have l2 : (!x2 && x3) = true := by
            exact cmpOrder_neg_iff.mp (by rw [← Option.some_inj.mp hj] at hjneg; exact hjneg)
          exact absurd l2 (by revert l1; cases x1 <;> cases x2 <;> cases x3 <;> simp)
      | tint kd k s =>
          cases a <;> simp [keyShaped] at hsa
          cases b <;> simp [keyShaped] at hsb
          cases x <;> simp [keyShaped] at hsx
          rename_i n1 tb n2 tx n3
          obtain ⟨i, hi, hineg⟩ := h1
          obtain ⟨j, hj, hjneg⟩ := h2
          rw [cmpVal_int_eval] at hi
          rw [cmpVal_int_eval] at hj
          have l1 : n1 < n2 := of_decide_eq_true (cmpOrder_neg_iff.mp
              (by rw [← Option.some_inj.mp hi] at hineg; exact hineg))
          have l2 : n2 < n3 := of_decide_eq_true (cmpOrder_neg_iff.mp
              (by rw [← Option.some_inj.mp hj] at hjneg; exact hjneg))
          refine ⟨_, cmpVal_int_eval .., ?_⟩
          simp [cmpOrder, lt_trans l1 l2, not_lt_of_lt (lt_trans l1 l2)]
      | tuint kd k s =>
          cases a <;> simp [keyShaped] at hsa
          cases b <;> simp [keyShaped] at hsb
          cases x <;> simp [keyShaped] at hsx
          rename_i n1 tb n2 tx n3
          obtain ⟨i, hi, hineg⟩ := h1
          obtain ⟨j, hj, hjneg⟩ := h2
          rw [cmpVal_uint_eval] at hi
          rw [cmpVal_uint_eval] at hj
          have l1 : n1 < n2 := of_decide_eq_true (cmpOrder_neg_iff.mp
              (by rw [← Option.some_inj.mp hi] at hineg; exact hineg))
          have l2 : n2 < n3 := of_decide_eq_true (cmpOrder_neg_iff.mp
              (by rw [← Option.some_inj.mp hj] at hjneg; exact hjneg))
          refine ⟨_, cmpVal_uint_eval .., ?_⟩
          simp [cmpOrder, lt_trans l1 l2, Nat.lt_asymm (lt_trans l1 l2)]
      | tfloat kd k s =>
          cases a <;> simp [keyShaped] at hsa
          cases b <;> simp [keyShaped] at hsb
          cases x <;> simp [keyShaped] at hsx
          rename_i f1 tb f2 tx f3
          obtain ⟨i, hi, hineg⟩ := h1
          obtain ⟨j, hj, hjneg⟩ := h2
          rw [cmpVal_float_eval] at hi
          rw [cmpVal_float_eval] at hj
          have l1 : f1.blt f2 = true :=
            cmpOrder_neg_iff.mp (by rw [← Option.some_inj.mp hi] at hineg; exact hineg)
          have l2 : f2.blt f3 = true :=
            cmpOrder_neg_iff.mp (by rw [← Option.some_inj.mp hj] at hjneg; exact hjneg)
          have l3 := GoFloat.blt_trans l1 l2
          refine ⟨_, cmpVal_float_eval .., ?_⟩
          have : f3.blt f1 = false := by
            by_contra hcon
            exact GoFloat.blt_asymm l3 (by revert hcon; cases f3.blt f1 <;> simp)
          simp [cmpOrder, l3]
      | tcomplex kd k s =>
          cases a <;> simp [keyShaped] at hsa
          cases b <;> simp [keyShaped] at hsb
          cases x <;> simp [keyShaped] at hsx
          rename_i f1 f2 tb g1 g2 tx e1 e2
          have hf := nanFreeKey_complex_inv hna
          have hg := nanFreeKey_complex_inv hnb
          have he := nanFreeKey_complex_inv hnx
          obtain ⟨i, hi, hineg⟩ := h1
          obtain ⟨j, hj, hjneg⟩ := h2
          rw [cmpVal_complex_eval] at hi
          rw [cmpVal_complex_eval] at hj
          have key : ∀ (p1 p2 q1 q2 : GoFloat), p1.nanFree = true →
              p2.nanFree = true → q1.nanFree = true → q2.nanFree = true →
              ∀ z : Int, (if p1.blt q1 then (-1 : Int) else if q1.blt p1 then 1
                else cmpOrder (p2.blt q2) (q2.blt p2)) = z → z < 0 →
              (p1.q < q1.q ∨ (p1.q = q1.q ∧ p2.q < q2.q)) := by
            intro p1 p2 q1 q2 hp1 hp2 hq1 hq2 z hz hzneg
            subst hz
            by_cases c1 : p1.blt q1 = true
            · exact Or.inl ((GoFloat.blt_iff_q hp1 hq1).mp c1)
            · by_cases c2 : q1.blt p1 = true
              · simp [c1, c2] at hzneg
              · simp only [Bool.not_eq_true] at c1 c2
                simp only [c1, c2, Bool.false_eq_true, if_false] at hzneg
                have h2nd := cmpOrder_neg_iff.mp hzneg
                refine Or.inr ⟨?_, (GoFloat.blt_iff_q hp2 hq2).mp h2nd⟩
                have := GoFloat.eq_of_not_blt hp1 hq1 c1 c2
                rw [this]
          have k1 := key f1 f2 g1 g2 hf.1 hf.2 hg.1 hg.2 i (Option.some_inj.mp hi) hineg
          have k2 := key g1 g2 e1 e2 hg.1 hg.2 he.1 he.2 j (Option.some_inj.mp hj) hjneg
          have k3 : f1.q < e1.q ∨ (f1.q = e1.q ∧ f2.q < e2.q) := by
            rcases k1 with h | ⟨hq, h2⟩ <;> rcases k2 with h' | ⟨hq', h2'⟩
            · exact Or.inl (lt_trans h h')
            · exact Or.inl (hq' ▸ h)
            · exact Or.inl (hq ▸ h')
            · exact Or.inr ⟨hq.trans hq', lt_trans h2 h2'⟩
          refine ⟨_, cmpVal_complex_eval .., ?_⟩
          rcases k3 with h | ⟨hq, h2⟩
          · simp [(GoFloat.blt_iff_q hf.1 he.1).mpr h]
          · have c1 : f1.blt e1 = false := by
              cases hbb : f1.blt e1
              · rfl
              · exact absurd ((GoFloat.blt_iff_q hf.1 he.1).mp hbb)
                  (by rw [hq]; exact lt_irrefl _)
            have c2 : e1.blt f1 = false := by
              cases hbb : e1.blt f1
              · rfl
              · exact absurd ((GoFloat.blt_iff_q he.1 hf.1).mp hbb)
                  (by rw [hq]; exact lt_irrefl _)
            have c3 : f2.blt e2 = true := (GoFloat.blt_iff_q hf.2 he.2).mpr h2
            simp [c1, c2, cmpOrder_neg_iff, c3]
      | tiface k s =>
          cases a <;> simp [keyShaped] at hsa
          cases b <;> simp [keyShaped] at hsb
          cases x <;> simp [keyShaped] at hsx
          rename_i d1 d2 w1 tb e1 e2 w2 tx g1 g2 w3
          obtain ⟨i, hi, hineg⟩ := h1
          obtain ⟨j, hj, hjneg⟩ := h2
          rw [cmpVal_iface_eval] at hi
          rw [cmpVal_iface_eval] at hj
          have l1 := (natpair_cmp_neg_iff d1 d2 e1 e2).mp
            (by rw [← Option.some_inj.mp hi] at hineg; exact hineg)
          have l2 := (natpair_cmp_neg_iff e1 e2 g1 g2).mp
            (by rw [← Option.some_inj.mp hj] at hjneg; exact hjneg)
          refine ⟨_, cmpVal_iface_eval .., ?_⟩
          rw [natpair_cmp_neg_iff]
          omega
      | tptr e =>
          cases a <;> simp [keyShaped] at hsa
          cases b <;> simp [keyShaped] at hsb
          cases x <;> simp [keyShaped] at hsx
          rename_i i1 w1 tb i2 w2 tx i3 w3
          obtain ⟨i, hi, hineg⟩ := h1
          obtain ⟨j, hj, hjneg⟩ := h2
          rw [cmpVal_ptr_eval] at hi
          rw [cmpVal_ptr_eval] at hj
          have l1 : i1 < i2 := of_decide_eq_true (cmpOrder_neg_iff.mp
              (by rw [← Option.some_inj.mp hi] at hineg; exact hineg))
          have l2 : i2 < i3 := of_decide_eq_true (cmpOrder_neg_iff.mp
              (by rw [← Option.some_inj.mp hj] at hjneg; exact hjneg))
          refine ⟨_, cmpVal_ptr_eval .., ?_⟩
          simp [cmpOrder, lt_trans l1 l2, Nat.lt_asymm (lt_trans l1 l2)]
      | tchan k s =>
          cases a <;> simp [keyShaped] at hsa
          cases b <;> simp [keyShaped] at hsb
          cases x <;> simp [keyShaped] at hsx
          rename_i i1 tb i2 tx i3
          obtain ⟨i, hi, hineg⟩ := h1
          obtain ⟨j, hj, hjneg⟩ := h2
          rw [cmpVal_chan_eval] at hi
          rw [cmpVal_chan_eval] at hj
          have l1 : i1 < i2 := of_decide_eq_true (cmpOrder_neg_iff.mp
              (by rw [← Option.some_inj.mp hi] at hineg; exact hineg))
          have l2 : i2 < i3 := of_decide_eq_true (cmpOrder_neg_iff.mp
              (by rw [← Option.some_inj.mp hj] at hjneg; exact hjneg))
          refine ⟨_, cmpVal_chan_eval .., ?_⟩
          simp [cmpOrder, lt_trans l1 l2, Nat.lt_asymm (lt_trans l1 l2)]
      | tstruct k s fs =>
          cases a with
          | vstruct t1 vs1 =>
            cases b with
            | vstruct t2 vs2 =>
              cases x with
              | vstruct t3 vs3 =>
                simp only [cmpVal_struct_eval, GoValue.structVals] at h1 h2 ⊢
                exact ihL fs (by simp at ht; omega) vs1 vs2 vs3
                  (by simpa [cmpOk] using hok)
                  (by simpa [keyShaped] using hsa)
                  (by simpa [nanFreeKey] using hna)
                  (by simpa [keyShaped] using hsb)
                  (by simpa [nanFreeKey] using hnb)
                  (by simpa [keyShaped] using hsx)
                  (by simpa [nanFreeKey] using hnx) h1 h2
              | _ => simp [keyShaped] at hsx
            | _ => simp [keyShaped] at hsb
          | _ => simp [keyShaped] at hsa
      | tarray len k s e => simp [cmpOk] at hok
      | tslice k s e => simp [cmpOk] at hok
      | tmap k s ke e => simp [cmpOk] at hok
      | tfunc k s => simp [cmpOk] at hok
      | tunsafeptr k s => simp [cmpOk] at hok
    · intro fs hfs as bs xs hok hsa hna hsb hnb hsx hnx h1 h2
      have hszf : ∀ fny : String × GoTag × GoType, ∀ r,
          fs = fny :: r → sizeOf fny.2.2 ≤ n := by
        intro fny r hfseq
        subst hfseq
        obtain ⟨u1, u2, u3⟩ := fny
        simp at hfs ⊢
        omega
      cases fs with
      | nil =>
      obtain ⟨i, hi, hineg⟩ := h1
      have : (0 : Int) = i := by simpa [structCmpGo, cmpFields] using hi
      omega
      | cons f fs' =>
      cases as with
      | nil => simp [keyShapedList] at hsa
      | cons a as' =>
        cases bs with
        | nil => simp [keyShapedList] at hsb
        | cons b bs' =>
          cases xs with
          | nil => simp [keyShapedList] at hsx
          | cons x' xs' =>
            simp only [cmpOkFields, Bool.and_eq_true] at hok
            simp only [keyShapedList, Bool.and_eq_true] at hsa hsb hsx
            simp only [nanFreeKeyList, Bool.and_eq_true] at hna hnb hnx
            obtain ⟨c, hc⟩ := cmpForType_isSome_of_ok f.2.2 hok.1
            obtain ⟨i, hi, hineg⟩ := h1
            obtain ⟨j, hj, hjneg⟩ := h2
            rw [show cmpFields (f :: fs') = cmpForType f.2.2 :: cmpFields fs'
                  from rfl, hc] at hi hj ⊢
            have inv1 := structCmpGo_cons_inv hi
            have inv2 := structCmpGo_cons_inv hj
            have tocv : ∀ u v : GoValue, ∀ r, c u v = some r →
                cmpVal f.2.2 u v = some r := by
              intro u v r hr
              simp [cmpVal, hc, hr]
            rcases inv1 with ⟨hz1, htl1⟩ | ⟨hv1, hnz1⟩ <;>
              rcases inv2 with ⟨hz2, htl2⟩ | ⟨hv2, hnz2⟩
            · -- both head comparisons zero: recurse on the tails
              obtain ⟨w, hw, hwneg⟩ := ihL' fs' (by simp at hfs; omega) as' bs' xs'
                hok.2 hsa.2 hna.2 hsb.2 hnb.2 hsx.2 hnx.2
                ⟨i, htl1, hineg⟩ ⟨j, htl2, hjneg⟩
              have hax : c a x' = some 0 := by
                have := cmpVal_zero_compose f.2.2 a b x' hok.1
                  hsa.1 hna.1 hsb.1 hnb.1 (tocv a b 0 hz1)
                have hx0 : cmpVal f.2.2 a x' = some 0 := by
                  rw [← this]
                  exact tocv b x' 0 hz2
                simpa [cmpVal, hc] using hx0
              exact ⟨w, by simp [structCmpGo, hax, hw], hwneg⟩
            · -- first zero, second strictly negative
              have hax : c a x' = some j := by
                have := cmpVal_zero_compose f.2.2 a b x' hok.1
                  hsa.1 hna.1 hsb.1 hnb.1 (tocv a b 0 hz1)
                have hxj : cmpVal f.2.2 a x' = some j := by
                  rw [← this]
                  exact tocv b x' j hv2
                simpa [cmpVal, hc] using hxj
              exact ⟨j, by simp [structCmpGo, hax, hnz2], hjneg⟩
            · -- first strictly negative, second zero
              obtain ⟨n, hn1, hn2⟩ := cmpVal_antisym f.2.2 a b hok.1
                hsa.1 hna.1 hsb.1 hnb.1
              have hni : n = i := by
                have h' := tocv a b i hv1
                rw [h'] at hn1
                exact (Option.some_inj.mp hn1).symm
              have hcompose := cmpVal_zero_compose f.2.2 b x' a hok.1
                hsb.1 hnb.1 hsx.1 hnx.1 (tocv b x' 0 hz2)
              have hxa : cmpVal f.2.2 x' a = some (-n) := hcompose.trans hn2
              obtain ⟨m, hm1, hm2⟩ := cmpVal_antisym f.2.2 a x' hok.1
                hsa.1 hna.1 hsx.1 hnx.1
              rw [hxa] at hm2
              have hmm : (-n : Int) = -m := Option.some_inj.mp hm2
              have hax : c a x' = some n := by
                have hmn : m = n := by omega
                rw [hmn] at hm1
                simpa [cmpVal, hc] using hm1
              refine ⟨n, ?_, by omega⟩
              simp [structCmpGo, hax, show n ≠ 0 from by omega]
            · -- both strictly negative: field-level transitivity
              obtain ⟨w, hw, hwneg⟩ := ihV f.2.2 (hszf f fs' rfl) a b x' hok.1
                hsa.1 hna.1 hsb.1 hnb.1 hsx.1 hnx.1
                ⟨i, tocv a b i hv1, hineg⟩ ⟨j, tocv b x' j hv2, hjneg⟩
              have hax : c a x' = some w := by simpa [cmpVal, hc] using hw
              exact ⟨w, by simp [structCmpGo, hax, show w ≠ 0 from by omega],
                hwneg⟩

/-- Strict transitivity of `cmpVal` on well-formed keys of an ok type. -/
theorem cmpVal_lt_trans (t : GoType) (a b x : GoValue) (hok : cmpOk t = true)
    (hsa : keyShaped t a = true) (hna : nanFreeKey a = true)
    (hsb : keyShaped t b = true) (hnb : nanFreeKey b = true)
    (hsx : keyShaped t x = true) (hnx : nanFreeKey x = true)
    (h1 : ∃ i, cmpVal t a b = some i ∧ i < 0)
    (h2 : ∃ j, cmpVal t b x = some j ∧ j < 0) :
    ∃ k, cmpVal t a x = some k ∧ k < 0 :=
  (cmpLtTransAux (sizeOf t)).1 t le_rfl a b x hok hsa hna hsb hnb hsx hnx h1 h2

/-- Strict transitivity of the struct field comparison. -/
theorem structCmpGo_lt_trans (fs : List (String × GoTag × GoType))
    (as bs xs : List GoValue) (hok : cmpOkFields fs = true)
    (hsa : keyShapedList fs as = true) (hna : nanFreeKeyList as = true)
    (hsb : keyShapedList fs bs = true) (hnb : nanFreeKeyList bs = true)
    (hsx : keyShapedList fs xs = true) (hnx : nanFreeKeyList xs = true)
    (h1 : ∃ i, structCmpGo (cmpFields fs) as bs = some i ∧ i < 0)
    (h2 : ∃ j, structCmpGo (cmpFields fs) bs xs = some j ∧ j < 0) :
    ∃ k, structCmpGo (cmpFields fs) as xs = some k ∧ k < 0 :=
  (cmpLtTransAux (sizeOf fs)).2 fs le_rfl as bs xs hok hsa hna hsb hnb hsx hnx
    h1 h2

/-! Theory of the entry sort: with a comparator that is total, antisymmetric
and transitive on the keys involved, `sortByKeyM` succeeds and produces the
key-sorted permutation; it is unique when no two keys tie. -/

/-- Non-strict key order induced by a comparator. -/
def keyLe {β : Type} (c : Cmp) (p q : GoValue × β) : Prop :=
  ∃ i, c p.1 q.1 = some i ∧ i ≤ 0

/-- Strict key order induced by a comparator. -/
def keyLt {β : Type} (c : Cmp) (p q : GoValue × β) : Prop :=
  ∃ i, c p.1 q.1 = some i ∧ i < 0

/-- Symmetric tie-freedom of two entries' keys. -/
def tieFree {β : Type} (c : Cmp) (p q : GoValue × β) : Prop :=
  c p.1 q.1 ≠ some 0 ∧ c q.1 p.1 ≠ some 0

/-- The comparator facts the sort lemmas need, scoped to a domain `D` of
key values. -/
structure CmpSound (c : Cmp) (D : GoValue → Prop) : Prop where
  tot : ∀ a b, D a → D b → ∃ i, c a b = some i ∧ c b a = some (-i)
  leTrans : ∀ a b x, D a → D b → D x →
    (∃ i, c a b = some i ∧ i ≤ 0) → (∃ j, c b x = some j ∧ j ≤ 0) →
    ∃ k, c a x = some k ∧ k ≤ 0

theorem insertByKeyM_spec {β : Type} {c : Cmp} {D : GoValue → Prop}
    (hs : CmpSound c D) (p : GoValue × β) (l : List (GoValue × β))
    (hp : D p.1) (hl : ∀ q ∈ l, D q.1) (hsort : l.Pairwise (keyLe c)) :
    ∃ l', insertByKeyM c p l = some l' ∧ List.Perm l' (p :: l) ∧
      l'.Pairwise (keyLe c) ∧ (∀ q ∈ l', D q.1) := by
  induction l with
  | nil =>
    refine ⟨[p], rfl, List.Perm.refl _, ?_, ?_⟩
    · simp
    · intro q hq
      simp at hq
      rw [hq]
      exact hp
  | cons q tl ih =>
    obtain ⟨i, hi, hi'⟩ := hs.tot p.1 q.1 hp (hl q (by simp))
    by_cases hneg : i < 0
    · refine ⟨p :: q :: tl, ?_, List.Perm.refl _, ?_, ?_⟩
      · simp [insertByKeyM, hi, hneg]
      · refine List.Pairwise.cons ?_ hsort
        intro t ht
        rcases List.mem_cons.mp ht with rfl | htl
        · exact ⟨i, hi, le_of_lt hneg⟩
        · have hqt : keyLe c q t := List.rel_of_pairwise_cons hsort htl
          obtain ⟨w, hw, hw'⟩ := hs.leTrans p.1 q.1 t.1 hp (hl q (by simp))
            (hl t (by simp [htl])) ⟨i, hi, le_of_lt hneg⟩ hqt
          exact ⟨w, hw, hw'⟩
      · intro r hr
        rcases List.mem_cons.mp hr with rfl | hrt
        · exact hp
        · exact hl r hrt
    · obtain ⟨tl', htl', hperm, hsorted, hD⟩ :=
        ih (fun r hr => hl r (by simp [hr])) (List.Pairwise.of_cons hsort)
      refine ⟨q :: tl', ?_, ?_, ?_, ?_⟩
      · simp [insertByKeyM, hi, hneg, htl']
      · exact (List.Perm.cons q hperm).trans (List.Perm.swap p q tl)
      · refine List.Pairwise.cons ?_ hsorted
        intro t ht
        rcases List.mem_cons.mp ((hperm.mem_iff).mp ht) with h | htl
        · rw [h]
          exact ⟨-i, hi', by omega⟩
        · exact List.rel_of_pairwise_cons hsort htl
      · intro r hr
        rcases List.mem_cons.mp hr with h | hrt
        · rw [h]
          exact hl q (by simp)
        · exact hD r hrt

theorem sortByKeyM_spec {β : Type} {c : Cmp} {D : GoValue → Prop}
    (hs : CmpSound c D) (l : List (GoValue × β)) (hl : ∀ q ∈ l, D q.1) :
    ∃ l', sortByKeyM c l = some l' ∧ List.Perm l' l ∧
      l'.Pairwise (keyLe c) ∧ (∀ q ∈ l', D q.1) := by
  induction l with
  | nil => exact ⟨[], rfl, List.Perm.refl _, by simp, by simp⟩
  | cons p tl ih =>
    obtain ⟨tl', htl', hperm, hsorted, hD⟩ :=
      ih (fun r hr => hl r (by simp [hr]))
    obtain ⟨l', hl', hperm', hsorted', hD'⟩ :=
      insertByKeyM_spec hs p tl' (hl p (by simp)) hD hsorted
    refine ⟨l', ?_, ?_, hsorted', hD'⟩
    · simp [sortByKeyM, htl', hl']
    · exact hperm'.trans (List.Perm.cons p hperm)

theorem pairwise_perm_tieFree {β : Type} {c : Cmp}
    {l l' : List (GoValue × β)} (hperm : List.Perm l l')
    (h : l.Pairwise (tieFree c)) : l'.Pairwise (tieFree c) := by
  refine (List.Perm.pairwise_iff ?_ hperm).mp h
  intro a b hab
  exact ⟨hab.2, hab.1⟩

theorem pairwise_keyLt_of_le_tieFree {β : Type} {c : Cmp}
    {l : List (GoValue × β)} (hle : l.Pairwise (keyLe c))
    (htf : l.Pairwise (tieFree c)) : l.Pairwise (keyLt c) := by
  have := List.Pairwise.and hle htf
  refine this.imp ?_
  rintro a b ⟨⟨i, hi, hile⟩, hne, _⟩
  refine ⟨i, hi, ?_⟩
  rcases lt_or_eq_of_le hile with h | h
  · exact h
  · exact absurd (h ▸ hi) hne

theorem sorted_lt_perm_eq {β : Type} {c : Cmp} {D : GoValue → Prop}
    (hs : CmpSound c D) :
    ∀ (l₁ l₂ : List (GoValue × β)), List.Perm l₁ l₂ →
      (∀ q ∈ l₁, D q.1) →
      l₁.Pairwise (keyLt c) → l₂.Pairwise (keyLt c) → l₁ = l₂ := by
  intro l₁
  induction l₁ with
  | nil =>
    intro l₂ hperm _ _ _
    simpa using hperm.nil_eq
  | cons p tl ih =>
    intro l₂ hperm hD h1 h2
    cases l₂ with
    | nil => exact absurd hperm.symm (by simp)
    | cons q tl₂ =>
      have hpq : p = q := by
        by_contra hne
        have hpmem : p ∈ q :: tl₂ := hperm.mem_iff.mp (by simp)
        have hqmem : q ∈ p :: tl := hperm.mem_iff.mpr (by simp)
        have hp2 : p ∈ tl₂ := by
          rcases List.mem_cons.mp hpmem with h | h
          · exact absurd h hne
          · exact h
        have hq1 : q ∈ tl := by
          rcases List.mem_cons.mp hqmem with h | h
          · exact absurd h.symm hne
          · exact h
        have hlt1 : keyLt c p q := List.rel_of_pairwise_cons h1 hq1
        have hlt2 : keyLt c q p := List.rel_of_pairwise_cons h2 hp2
        obtain ⟨i, hi, hineg⟩ := hlt1
        obtain ⟨j, hj, hjneg⟩ := hlt2
        obtain ⟨w, hw, hw'⟩ := hs.tot p.1 q.1 (hD p (by simp))
          (hD q (by simp [hq1]))
        rw [hw] at hi
        rw [hw'] at hj
        have : w = i := by simpa using hi
        have : -w = j := by simpa using hj
        omega
      subst hpq
      have htl : List.Perm tl tl₂ := (List.perm_cons p).mp hperm
      rw [ih tl₂ htl (fun r hr => hD r (by simp [hr]))
        (List.Pairwise.of_cons h1) (List.Pairwise.of_cons h2)]

theorem insertByKeyM_front {β : Type} {c : Cmp} (p : GoValue × β)
    (l : List (GoValue × β)) (h : ∀ q ∈ l.head?, keyLt c p q) :
    ∀ hd tl, l = hd :: tl → insertByKeyM c p l = some (p :: l) := by
  intro hd tl hl
  subst hl
  obtain ⟨i, hi, hineg⟩ := h hd (by simp)
  simp [insertByKeyM, hi, hineg]

theorem sortByKeyM_sorted_id {β : Type} {c : Cmp} :
    ∀ l : List (GoValue × β), l.Pairwise (keyLt c) →
      sortByKeyM c l = some l := by
  intro l
  induction l with
  | nil => intro _; rfl
  | cons p tl ih =>
    intro h
    have htl := ih (List.Pairwise.of_cons h)
    cases tl with
    | nil => rfl
    | cons q tl' =>
      have hlt : keyLt c p q := List.rel_of_pairwise_cons h (by simp)
      obtain ⟨i, hi, hineg⟩ := hlt
      show (do
        let r ← sortByKeyM c (q :: tl')
        insertByKeyM c p r) = some (p :: q :: tl')
      rw [htl]
      simp only [Option.bind_eq_bind, Option.some_bind]
      simp [insertByKeyM, hi, hineg]

theorem insertByKeyM_map {β γ : Type} (c : Cmp)
    (h : (GoValue × β) → (GoValue × γ))
    (hpres : ∀ p q : GoValue × β, c (h p).1 (h q).1 = c p.1 q.1)
    (p : GoValue × β) :
    ∀ l : List (GoValue × β),
      insertByKeyM c (h p) (l.map h) = (insertByKeyM c p l).map (List.map h) := by
  intro l
  induction l with
  | nil => rfl
  | cons q tl ih =>
    simp only [List.map_cons, insertByKeyM, hpres]
    cases hc : c p.1 q.1 with
    | none => rfl
    | some r =>
      by_cases hr : r < 0
      · simp [hr]
      · simp only [hr, if_false, Option.bind_eq_bind, Option.some_bind, ih]
        cases insertByKeyM c p tl <;> rfl

theorem sortByKeyM_map {β γ : Type} (c : Cmp)
    (h : (GoValue × β) → (GoValue × γ))
    (hpres : ∀ p q : GoValue × β, c (h p).1 (h q).1 = c p.1 q.1) :
    ∀ l : List (GoValue × β),
      sortByKeyM c (l.map h) = (sortByKeyM c l).map (List.map h) := by
  intro l
  induction l with
  | nil => rfl
  | cons p tl ih =>
    simp only [List.map_cons, sortByKeyM, ih]
    cases sortByKeyM c tl with
    | none => rfl
    | some tl' =>
      simp [insertByKeyM_map c h hpres]

/-- The domain of well-formed keys of type `kt`. -/
def keyDom (kt : GoType) (v : GoValue) : Prop :=
  keyShaped kt v = true ∧ nanFreeKey v = true

theorem cmpVal_le_trans (t : GoType) (a b x : GoValue) (hok : cmpOk t = true)
    (ha : keyDom t a) (hb : keyDom t b) (hx : keyDom t x)
    (h1 : ∃ i, cmpVal t a b = some i ∧ i ≤ 0)
    (h2 : ∃ j, cmpVal t b x = some j ∧ j ≤ 0) :
    ∃ k, cmpVal t a x = some k ∧ k ≤ 0 := by
  obtain ⟨i, hi, hile⟩ := h1
  obtain ⟨j, hj, hjle⟩ := h2
  by_cases hiz : i = 0
  · subst hiz
    have := cmpVal_zero_compose t a b x hok ha.1 ha.2 hb.1 hb.2 hi
    rw [this] at hj
    exact ⟨j, hj, hjle⟩
  · by_cases hjz : j = 0
    · subst hjz
      obtain ⟨n, hn1, hn2⟩ := cmpVal_antisym t a b hok ha.1 ha.2 hb.1 hb.2
      have hni : n = i := by
        rw [hi] at hn1
        exact (Option.some_inj.mp hn1).symm
      have hcompose := cmpVal_zero_compose t b x a hok hb.1 hb.2 hx.1 hx.2 hj
      have hxa : cmpVal t x a = some (-n) := hcompose.trans hn2
      obtain ⟨m, hm1, hm2⟩ := cmpVal_antisym t a x hok ha.1 ha.2 hx.1 hx.2
      rw [hxa] at hm2
      have : (-n : Int) = -m := Option.some_inj.mp hm2
      refine ⟨m, hm1, by omega⟩
    · obtain ⟨k, hk, hkneg⟩ := cmpVal_lt_trans t a b x hok ha.1 ha.2 hb.1 hb.2
        hx.1 hx.2 ⟨i, hi, by omega⟩ ⟨j, hj, by omega⟩
      exact ⟨k, hk, le_of_lt hkneg⟩

/-- On well-formed keys of an ok type, the comparator returned by
`cmpForType` satisfies the sort lemmas' requirements. -/
theorem cmpSound_of_ok (kt : GoType) (c : Cmp) (hok : cmpOk kt = true)
    (hc : cmpForType kt = some c) : CmpSound c (keyDom kt) := by
  constructor
  · intro a b ha hb
    obtain ⟨i, hi1, hi2⟩ := cmpVal_antisym kt a b hok ha.1 ha.2 hb.1 hb.2
    exact ⟨i, by simpa [cmpVal, hc] using hi1, by simpa [cmpVal, hc] using hi2⟩
  · intro a b x ha hb hx h1 h2
    have h1' : ∃ i, cmpVal kt a b = some i ∧ i ≤ 0 := by
      obtain ⟨i, hi, hile⟩ := h1
      exact ⟨i, by simpa [cmpVal, hc] using hi, hile⟩
    have h2' : ∃ j, cmpVal kt b x = some j ∧ j ≤ 0 := by
      obtain ⟨j, hj, hjle⟩ := h2
      exact ⟨j, by simpa [cmpVal, hc] using hj, hjle⟩
    obtain ⟨k, hk, hkle⟩ := cmpVal_le_trans kt a b x hok ha hb hx h1' h2'
    exact ⟨k, by simpa [cmpVal, hc] using hk, hkle⟩

/-! Permutation invariance of the map-entry sort, and of the rendered map. -/

theorem sortByKeyM_perm_eq {β : Type} {c : Cmp} {D : GoValue → Prop}
    (hs : CmpSound c D) (l1 l2 : List (GoValue × β))
    (hperm : List.Perm l1 l2) (hdom : ∀ q ∈ l1, D q.1)
    (htf : l1.Pairwise (tieFree c)) :
    ∃ r, sortByKeyM c l1 = some r ∧ sortByKeyM c l2 = some r := by
  obtain ⟨r1, hr1, hperm1, hsort1, _⟩ := sortByKeyM_spec hs l1 hdom
  have hdom2 : ∀ q ∈ l2, D q.1 := fun q hq => hdom q (hperm.mem_iff.mpr hq)
  obtain ⟨r2, hr2, hperm2, hsort2, _⟩ := sortByKeyM_spec hs l2 hdom2
  have htf2 : l2.Pairwise (tieFree c) := pairwise_perm_tieFree hperm htf
  have htf1' : r1.Pairwise (tieFree c) := pairwise_perm_tieFree hperm1.symm htf
  have htf2' : r2.Pairwise (tieFree c) :=
    pairwise_perm_tieFree hperm2.symm htf2
  have hlt1 : r1.Pairwise (keyLt c) := pairwise_keyLt_of_le_tieFree hsort1 htf1'
  have hlt2 : r2.Pairwise (keyLt c) := pairwise_keyLt_of_le_tieFree hsort2 htf2'
  have hperm12 : List.Perm r1 r2 := hperm1.trans (hperm.trans hperm2.symm)
  have hdomr1 : ∀ q ∈ r1, D q.1 := fun q hq => hdom q (hperm1.mem_iff.mp hq)
  have heq := sorted_lt_perm_eq hs r1 r2 hperm12 hdomr1 hlt1 hlt2
  exact ⟨r1, hr1, by rw [hr2, heq]⟩

theorem tryAndSortMapKeys_perm_eq {β : Type} (kt : GoType) (c : Cmp)
    (l1 l2 : List (GoValue × β)) (hok : cmpOk kt = true)
    (hc : cmpForType kt = some c)
    (hperm : List.Perm l1 l2) (hdom : ∀ q ∈ l1, keyDom kt q.1)
    (htf : l1.Pairwise (tieFree c)) :
    tryAndSortMapKeys kt l1 = tryAndSortMapKeys kt l2 := by
  have hs := cmpSound_of_ok kt c hok hc
  obtain ⟨r, hr1, hr2⟩ := sortByKeyM_perm_eq hs l1 l2 hperm hdom htf
  simp [tryAndSortMapKeys, hc, hr1, hr2]

theorem renderEntryList_eq_map (s : List Nat) (kA vA : Bool)
    (entries : List (GoValue × GoValue)) (masked : Bool) (o : Options) :
    renderEntryList s kA vA entries masked o =
      entries.map (fun p =>
        (p.1, render s 0 p.1 kA masked o ++ ":" ++
          render s 0 p.2 vA masked o)) := by
  induction entries with
  | nil => rfl
  | cons p tl ih =>
    cases p
    simp [renderEntryList, ih]

theorem render_map_perm (s : List Nat) (ptrs : Nat) (t : GoType) (id : Nat)
    (e1 e2 : List (GoValue × GoValue)) (implicit masked : Bool) (o : Options)
    (c : Cmp)
    (hok : cmpOk t.keyType = true) (hc : cmpForType t.keyType = some c)
    (hfmt : o.render.typeFormatters t.tstr = none)
    (hperm : List.Perm e1 e2)
    (hdom : ∀ q ∈ e1, keyDom t.keyType q.1)
    (htf : e1.Pairwise (tieFree c)) :
    render s ptrs (.vmap t id (some e1)) implicit masked o =
    render s ptrs (.vmap t id (some e2)) implicit masked o := by
  have hren : ∀ e : List (GoValue × GoValue),
      render s ptrs (.vmap t id (some e)) implicit masked o =
      match cycleGate s id with
      | none => recursionMark o ptrs t implicit
      | some s1 =>
          (if implicit then "" else writeType ptrs t) ++ "\x7b" ++
            joinComma
              ((tryAndSortMapKeys t.keyType
                  (renderEntryList s1 (keyConvAnon t.keyType)
                    (t.tname == "" && isAnon t.elemType) e masked o)).map
                Prod.snd) ++ "\x7d" := by
    intro e
    simp [render, fmtOr, callRegisteredTypeFormatter, hfmt]
  rw [hren e1, hren e2]
  cases hcg : cycleGate s id with
  | none => rfl
  | some s1 =>
    have hkey : tryAndSortMapKeys t.keyType
        (renderEntryList s1 (keyConvAnon t.keyType)
          (t.tname == "" && isAnon t.elemType) e1 masked o) =
        tryAndSortMapKeys t.keyType
        (renderEntryList s1 (keyConvAnon t.keyType)
          (t.tname == "" && isAnon t.elemType) e2 masked o) := by
      rw [renderEntryList_eq_map, renderEntryList_eq_map]
      refine tryAndSortMapKeys_perm_eq t.keyType c _ _ hok hc
        (hperm.map _) ?_ ?_
      · intro q hq
        obtain ⟨p, hp, hpq⟩ := List.mem_map.mp hq
        rw [← hpq]
        exact hdom p hp
      · exact htf.map _ (fun a b h => h)
    simp [hkey]

/-! Fallback on panicking formatters: rendering with a registry whose every
formatter panics equals rendering with no registry at all. -/

/-- The same options with every registered type formatter dropped. -/
def noFmt (o : Options) : Options :=
  { o with render := { o.render with typeFormatters := fun _ => none } }

theorem fmtOr_panic (o : Options)
    (hpanic : ∀ ts f v, o.render.typeFormatters ts = some f → f v = none)
    (ptrs : Nat) (t : GoType) (v : GoValue) (implicit : Bool)
    (body : String) : fmtOr o ptrs t v implicit body = body := by
  unfold fmtOr callRegisteredTypeFormatter
  cases hf : o.render.typeFormatters t.tstr with
  | none => rfl
  | some f =>
    have hfv : f v = none := hpanic t.tstr f v hf
    simp [hfv]

theorem fmtOr_noFmt (o : Options) (ptrs : Nat) (t : GoType) (v : GoValue)
    (implicit : Bool) (body : String) :
    fmtOr (noFmt o) ptrs t v implicit body = body := rfl

theorem renderPanicAux (o : Options)
    (hpanic : ∀ ts f v, o.render.typeFormatters ts = some f → f v = none) :
    ∀ N : Nat,
      (∀ (v : GoValue) (s : List Nat) (ptrs : Nat) (implicit masked : Bool),
          sizeOf v ≤ N →
          render s ptrs v implicit masked o =
            render s ptrs v implicit masked (noFmt o)) ∧
      (∀ (vs : List GoValue) (s : List Nat) (sa : Bool)
          (prev : Option (String × GoTag × GoType))
          (ds : List (String × GoTag × GoType)) (masked : Bool),
          sizeOf vs ≤ N →
          renderFields s sa prev ds vs masked o =
            renderFields s sa prev ds vs masked (noFmt o)) ∧
      (∀ (es : List GoValue) (s : List Nat) (first anon masked : Bool),
          sizeOf es ≤ N →
          renderElems s first anon es masked o =
            renderElems s first anon es masked (noFmt o)) ∧
      (∀ (entries : List (GoValue × GoValue)) (s : List Nat)
          (kA vA masked : Bool),
          sizeOf entries ≤ N →
          renderEntryList s kA vA entries masked o =
            renderEntryList s kA vA entries masked (noFmt o)) := by
  intro N
  induction N with
  | zero =>
    refine ⟨?_, ?_, ?_, ?_⟩
    · intro v s ptrs implicit masked h
      cases v <;> simp at h
    · intro vs s sa prev ds masked h
      cases vs <;> simp at h
    · intro es s first anon masked h
      cases es <;> simp at h
    · intro entries s kA vA masked h
      cases entries <;> simp at h
  | succ N ihN =>
    obtain ⟨ihV, ihF, ihE, ihM⟩ := ihN
    refine ⟨?_, ?_, ?_, ?_⟩
    · intro v s ptrs implicit masked h
      cases v with
      | vinvalid => rfl
      | vbool t b =>
        simp only [render]
        rw [fmtOr_panic o hpanic, fmtOr_noFmt]
        exact rfl
      | vint t n =>
        simp only [render]
        rw [fmtOr_panic o hpanic, fmtOr_noFmt]
        exact rfl
      | vuint t n =>
        simp only [render]
        rw [fmtOr_panic o hpanic, fmtOr_noFmt]
        exact rfl
      | vfloat t x =>
        simp only [render]
        rw [fmtOr_panic o hpanic, fmtOr_noFmt]
        exact rfl
      | vcomplex t re im =>
        simp only [render]
        rw [fmtOr_panic o hpanic, fmtOr_noFmt]
        exact rfl
      | vstring t str =>
        simp only [render]
        rw [fmtOr_panic o hpanic, fmtOr_noFmt]
        exact rfl
      | vstruct t fs =>
        have hsz : sizeOf fs ≤ N := by simp at h; omega
        simp only [render]
        rw [fmtOr_panic o hpanic, fmtOr_noFmt,
          ihF fs s (t.tname == "") none t.structFields masked hsz]
      | vslice t id es? =>
        cases es? with
        | none =>
          simp only [render]
          rw [fmtOr_panic o hpanic, fmtOr_noFmt]
          exact rfl
        | some es =>
          have hsz : sizeOf es ≤ N := by simp at h; omega
          simp only [render]
          rw [fmtOr_panic o hpanic, fmtOr_noFmt]
          cases hcg : cycleGate s id with
          | none => rfl
          | some s1 =>
            have hr := ihE es s1 true (t.tname == "" && isAnon t.elemType)
              masked hsz
            simp [hr]
      | varray t es =>
        have hsz : sizeOf es ≤ N := by simp at h; omega
        simp only [render]
        rw [fmtOr_panic o hpanic, fmtOr_noFmt,
          ihE es s true (t.tname == "" && isAnon t.elemType) masked hsz]
      | vmap t id entries? =>
        cases entries? with
        | none =>
          simp only [render]
          rw [fmtOr_panic o hpanic, fmtOr_noFmt]
          exact rfl
        | some entries =>
          have hsz : sizeOf entries ≤ N := by simp at h; omega
          simp only [render]
          rw [fmtOr_panic o hpanic, fmtOr_noFmt]
          cases hcg : cycleGate s id with
          | none => rfl
          | some s1 =>
            have hr := ihM entries s1 (keyConvAnon t.keyType)
              (t.tname == "" && isAnon t.elemType) masked hsz
            simp [hr]
      | vptr t id tgt? =>
        cases tgt? with
        | none =>
          simp only [render]
          rw [fmtOr_panic o hpanic, fmtOr_noFmt]
        | some tgt =>
          have hsz : sizeOf tgt ≤ N := by simp at h; omega
          simp only [render]
          rw [fmtOr_panic o hpanic, fmtOr_noFmt]
          cases hcg : cycleGate s (ptrCycleId id tgt) with
          | none => rfl
          | some s1 =>
            have hr := ihV tgt s1 (ptrs + 1) false masked hsz
            simp [hr]
      | viface t d1 d2 w? =>
        cases w? with
        | none =>
          simp only [render]
          rw [fmtOr_panic o hpanic, fmtOr_noFmt]
        | some w =>
          have hsz : sizeOf w ≤ N := by simp at h; omega
          simp only [render]
          rw [fmtOr_panic o hpanic, fmtOr_noFmt,
            ihV w s ptrs false masked hsz]
      | vchan t id =>
        simp only [render]
        rw [fmtOr_panic o hpanic, fmtOr_noFmt]
        exact rfl
      | vfunc t id =>
        simp only [render]
        rw [fmtOr_panic o hpanic, fmtOr_noFmt]
        exact rfl
      | vunsafeptr t id =>
        simp only [render]
        rw [fmtOr_panic o hpanic, fmtOr_noFmt]
        exact rfl
    · intro vs s sa prev ds masked h
      cases ds with
      | nil => cases vs <;> rfl
      | cons d ds' =>
        cases vs with
        | nil => rfl
        | cons fv vs' =>
          have hsz1 : sizeOf fv ≤ N := by simp at h; omega
          have hsz2 : sizeOf vs' ≤ N := by simp at h; omega
          simp only [renderFields]
          rw [ihV fv s 0 (sa && isAnon d.2.2) true hsz1,
            ihV fv s 0 (sa && isAnon d.2.2) masked hsz1,
            ihF vs' s sa (some d) ds' masked hsz2]
          exact rfl
    · intro es s first anon masked h
      cases es with
      | nil => rfl
      | cons e tl =>
        have hsz1 : sizeOf e ≤ N := by simp at h; omega
        have hsz2 : sizeOf tl ≤ N := by simp at h; omega
        simp only [renderElems]
        rw [ihV e s 0 anon masked hsz1, ihE tl s false anon masked hsz2]
    · intro entries s kA vA masked h
      cases entries with
      | nil => rfl
      | cons p tl =>
        obtain ⟨k, v⟩ := p
        have hsz1 : sizeOf k ≤ N := by simp at h; omega
        have hsz2 : sizeOf v ≤ N := by simp at h; omega
        have hsz3 : sizeOf tl ≤ N := by simp at h; omega
        simp only [renderEntryList]
        rw [ihV k s 0 kA masked hsz1, ihV v s 0 vA masked hsz2,
          ihM tl s kA vA masked hsz3]

/-- Rendering with an all-panicking formatter registry is rendering with
no registry. -/
theorem render_panic_fallback (o : Options)
    (hpanic : ∀ ts f v, o.render.typeFormatters ts = some f → f v = none)
    (s : List Nat) (ptrs : Nat) (v : GoValue) (implicit masked : Bool) :
    render s ptrs v implicit masked o =
      render s ptrs v implicit masked (noFmt o) :=
  (renderPanicAux o hpanic (sizeOf v)).1 v s ptrs implicit masked le_rfl

/-! Token-level rendering: every builder write of the source is tagged with
its destination — `lit` for writes to the raw builder `masker.str` (type
prefixes, braces, separators, field names, colons, quotes, placeholders,
formatter output), `num` for scalar content written through the mask
writer, `qstr` for string content (masked first, then `%q`-quoted into the
raw builder).  Flattening the tokens reproduces `render` exactly. -/

inductive Tok where
  | lit (s : String)
  | num (m : Bool) (s : String)
  | qstr (m : Bool) (s : String)

/-- One token's contribution to the output: `lit` is written verbatim,
never through the mask writer. -/
def flatTok (r : RedactOptions) : Tok → String
  | .lit s => s
  | .num m s => maskWrite r m s
  | .qstr m s => goQuote (if m then maskWrite r true s else s)

def flatToks (r : RedactOptions) : List Tok → String
  | [] => ""
  | t :: ts => flatTok r t ++ flatToks r ts

theorem flatToks_append (r : RedactOptions) (a b : List Tok) :
    flatToks r (a ++ b) = flatToks r a ++ flatToks r b := by
  induction a with
  | nil => simp [flatToks]
  | cons t ts ih => simp [flatToks, ih, String.append_assoc]

/-- The options the traversal shape depends on: the masking parameters
(`maskingChar`, `maskingLength`, `maskingReverse`) are deliberately
absent — they only enter through `flatTok`. -/
structure ShapeOpts where
  render : RenderOptions
  active : Bool
  tag : String
  repl : String

def Options.shape (o : Options) : ShapeOpts :=
  ⟨o.render, o.redact.active, o.redact.tag, o.redact.replacementPlaceholder⟩

def callFmtShape (so : ShapeOpts) (ptrs : Nat) (vt : GoType) (v : GoValue)
    (implicit : Bool) : Option String :=
  match so.render.typeFormatters vt.tstr with
  | none => none
  | some f =>
    match f v with
    | none => none
    | some out =>
        some ((if implicit then "" else writeType ptrs vt) ++ "(" ++ out ++ ")")

def fmtOrToks (so : ShapeOpts) (ptrs : Nat) (t : GoType) (v : GoValue)
    (implicit : Bool) (body : List Tok) : List Tok :=
  match callFmtShape so ptrs t v implicit with
  | some out => [.lit out]
  | none => body

def recursionMarkShape (so : ShapeOpts) (ptrs : Nat) (t : GoType)
    (implicit : Bool) : String :=
  "<" ++ so.render.recursionPlaceholder ++ "(" ++
    (if implicit then "" else writeType ptrs t) ++ ")>"

def isRemovedShape (so : ShapeOpts) (f : String × GoTag × GoType) : Bool :=
  match tagLookup f.2.1 so.tag with
  | none => false
  | some tag => tag == REMOVE

def scalarRenderToks (ptrs : Nat) (t : GoType) (implicit masked : Bool)
    (isString : Bool) (content : String) : List Tok :=
  let impl2 := scalarImplicit implicit ptrs t.kindBuiltinName t.tstr
  (if impl2 then [] else [Tok.lit (writeType ptrs t ++ "(")]) ++
    [if isString then Tok.qstr masked content else Tok.num masked content] ++
    (if impl2 then [] else [Tok.lit ")"])

def redactFieldToks (so : ShapeOpts)
    (prev? : Option (String × GoTag × GoType))
    (d : String × GoTag × GoType) (anon masked : Bool)
    (maskedToks : List Tok) : List Tok × Bool :=
  match tagLookup d.2.1 so.tag with
  | none => ([], false)
  | some tag =>
    if tag == REMOVE then ([], true)
    else
      let sep :=
        match prev? with
        | some p => if !isRemovedShape so p then ", " else ""
        | none => ""
      let nm := if !anon then d.1 ++ ":" else ""
      if tag == REPLACE then
        ([.lit (sep ++ nm ++ "<" ++ so.repl ++ ">")], true)
      else if tag == MASK || masked then
        (.lit (sep ++ nm) :: maskedToks, true)
      else
        ([.lit (sep ++ nm)], false)

def joinCommaToks : List (List Tok) → List Tok
  | [] => []
  | [x] => x
  | x :: tl => x ++ [.lit ", "] ++ joinCommaToks tl

mutual

def renderToks (s : List Nat) (ptrs : Nat) (v : GoValue)
    (implicit masked : Bool) (so : ShapeOpts) : List Tok :=
  match v with
  | .vinvalid => [.lit "nil"]
  | .vbool t b =>
      fmtOrToks so ptrs t (.vbool t b) implicit
        (scalarRenderToks ptrs t implicit masked false (goBoolRepr b))
  | .vint t n =>
      fmtOrToks so ptrs t (.vint t n) implicit
        (scalarRenderToks ptrs t implicit masked false (goIntRepr n))
  | .vuint t n =>
      fmtOrToks so ptrs t (.vuint t n) implicit
        (scalarRenderToks ptrs t implicit masked false (goUintRepr n))
  | .vfloat t x =>
      fmtOrToks so ptrs t (.vfloat t x) implicit
        (scalarRenderToks ptrs t implicit masked false (goFloatRepr x))
  | .vcomplex t re im =>
      fmtOrToks so ptrs t (.vcomplex t re im) implicit
        (scalarRenderToks ptrs t implicit masked false (goComplexRepr re im))
  | .vstring t str =>
      fmtOrToks so ptrs t (.vstring t str) implicit
        (scalarRenderToks ptrs t implicit masked true str)
  | .vstruct t fs =>
      fmtOrToks so ptrs t (.vstruct t fs) implicit
        (.lit ((if implicit then "" else writeType ptrs t) ++ "\x7b") ::
          renderFieldsToks s (t.tname == "") none t.structFields fs masked so
          ++ [.lit "\x7d"])
  | .vslice t id none =>
      fmtOrToks so ptrs t (.vslice t id none) implicit
        (match cycleGate s id with
         | none => [.lit (recursionMarkShape so ptrs t implicit)]
         | some _ =>
            [.lit (if !implicit then writeType ptrs t ++ "(nil)" else "nil")])
  | .vslice t id (some es) =>
      fmtOrToks so ptrs t (.vslice t id (some es)) implicit
        (match cycleGate s id with
         | none => [.lit (recursionMarkShape so ptrs t implicit)]
         | some s1 =>
            .lit ((if implicit then "" else writeType ptrs t) ++ "\x7b") ::
              renderElemsToks s1 true (t.tname == "" && isAnon t.elemType) es
                masked so ++ [.lit "\x7d"])
  | .varray t es =>
      fmtOrToks so ptrs t (.varray t es) implicit
        (.lit ((if implicit then "" else writeType ptrs t) ++ "\x7b") ::
          renderElemsToks s true (t.tname == "" && isAnon t.elemType) es
            masked so ++ [.lit "\x7d"])
  | .vmap t id none =>
      fmtOrToks so ptrs t (.vmap t id none) implicit
        (match cycleGate s id with
         | none => [.lit (recursionMarkShape so ptrs t implicit)]
         | some _ =>
            [.lit ((if implicit then "" else writeType ptrs t) ++ "(nil)")])
  | .vmap t id (some entries) =>
      fmtOrToks so ptrs t (.vmap t id (some entries)) implicit
        (match cycleGate s id with
         | none => [.lit (recursionMarkShape so ptrs t implicit)]
         | some s1 =>
            .lit ((if implicit then "" else writeType ptrs t) ++ "\x7b") ::
              joinCommaToks
                ((tryAndSortMapKeys t.keyType
                    (renderEntryListToks s1 (keyConvAnon t.keyType)
                      (t.tname == "" && isAnon t.elemType) entries masked
                      so)).map Prod.snd) ++ [.lit "\x7d"])
  | .vptr t id none =>
      fmtOrToks so ptrs t (.vptr t id none) implicit
        [.lit (writeType (ptrs + 1) t ++ "(nil)")]
  | .vptr t id (some tgt) =>
      fmtOrToks so ptrs t (.vptr t id (some tgt)) implicit
        (match cycleGate s (ptrCycleId id tgt) with
         | none => [.lit (recursionMarkShape so ptrs t implicit)]
         | some s1 => renderToks s1 (ptrs + 1) tgt false masked so)
  | .viface t d1 d2 none =>
      fmtOrToks so ptrs t (.viface t d1 d2 none) implicit
        [.lit (writeType ptrs t ++ "(nil)")]
  | .viface t d1 d2 (some w) =>
      fmtOrToks so ptrs t (.viface t d1 d2 (some w)) implicit
        (renderToks s ptrs w false masked so)
  | .vchan t id =>
      fmtOrToks so ptrs t (.vchan t id) implicit
        [.lit (writeType ptrs t ++ "("), .num masked (hex016 id), .lit ")"]
  | .vfunc t id =>
      fmtOrToks so ptrs t (.vfunc t id) implicit
        [.lit (writeType ptrs t ++ "("), .num masked (hex016 id), .lit ")"]
  | .vunsafeptr t id =>
      fmtOrToks so ptrs t (.vunsafeptr t id) implicit
        [.lit (writeType ptrs t ++ "("), .num masked (hex016 id), .lit ")"]

def renderFieldsToks (s : List Nat) (structAnon : Bool)
    (prev? : Option (String × GoTag × GoType))
    (ds : List (String × GoTag × GoType)) (vs : List GoValue)
    (masked : Bool) (so : ShapeOpts) : List Tok :=
  match ds, vs with
  | d :: ds', fv :: vs' =>
      let anon := structAnon && isAnon d.2.2
      let maskedToks := renderToks s 0 fv anon true so
      let normal :=
        Tok.lit ((match prev? with
           | some p => if !so.active || !isRemovedShape so p then ", " else ""
           | none => "") ++
          (if !anon then d.1 ++ ":" else "")) ::
        renderToks s 0 fv anon masked so
      let head :=
        if so.active then
          match redactFieldToks so prev? d anon masked maskedToks with
          | (out, true) => out
          | (out, false) => out ++ normal
        else normal
      head ++ renderFieldsToks s structAnon (some d) ds' vs' masked so
  | _, _ => []

def renderElemsToks (s : List Nat) (first : Bool) (anon : Bool)
    (es : List GoValue) (masked : Bool) (so : ShapeOpts) : List Tok :=
  match es with
  | [] => []
  | e :: tl =>
      .lit (if first then "" else ", ") :: renderToks s 0 e anon masked so ++
        renderElemsToks s false anon tl masked so

def renderEntryListToks (s : List Nat) (keyAnon valAnon : Bool)
    (entries : List (GoValue × GoValue)) (masked : Bool) (so : ShapeOpts) :
    List (GoValue × List Tok) :=
  match entries with
  | [] => []
  | (k, v) :: tl =>
      (k, renderToks s 0 k keyAnon masked so ++ .lit ":" ::
            renderToks s 0 v valAnon masked so) ::
        renderEntryListToks s keyAnon valAnon tl masked so

end

theorem flatToks_fmtOrToks (o : Options) (ptrs : Nat) (t : GoType)
    (v : GoValue) (implicit : Bool) (body : List Tok) :
    flatToks o.redact (fmtOrToks o.shape ptrs t v implicit body) =
      fmtOr o ptrs t v implicit (flatToks o.redact body) := by
  unfold fmtOrToks fmtOr
  have hcall : callFmtShape o.shape ptrs t v implicit =
      callRegisteredTypeFormatter o ptrs t v implicit := rfl
  rw [hcall]
  cases callRegisteredTypeFormatter o ptrs t v implicit with
  | none => rfl
  | some out => simp [flatToks, flatTok]

theorem flatToks_scalarRenderToks (o : Options) (ptrs : Nat) (t : GoType)
    (implicit masked : Bool) (isString : Bool) (content : String) :
    flatToks o.redact
        (scalarRenderToks ptrs t implicit masked isString content) =
      scalarRender o ptrs t implicit masked isString content := by
  unfold scalarRenderToks scalarRender
  cases scalarImplicit implicit ptrs t.kindBuiltinName t.tstr <;>
    cases isString <;>
    simp [flatToks, flatTok, flatToks_append, String.append_assoc]

theorem flatToks_joinCommaToks (r : RedactOptions) :
    ∀ ls : List (List Tok),
      flatToks r (joinCommaToks ls) = joinComma (ls.map (flatToks r))
  | [] => rfl
  | [x] => by simp [joinCommaToks, joinComma]
  | x :: y :: tl => by
    have ih := flatToks_joinCommaToks r (y :: tl)
    simp only [joinCommaToks, joinComma, List.map_cons, flatToks_append,
      flatToks, flatTok, String.append_empty, ih]

theorem tryAndSortMapKeys_map {β γ : Type} (kt : GoType) (g : β → γ)
    (l : List (GoValue × β)) :
    tryAndSortMapKeys kt (l.map (fun p => (p.1, g p.2))) =
      (tryAndSortMapKeys kt l).map (fun p => (p.1, g p.2)) := by
  cases hc : cmpForType kt with
  | none => simp [tryAndSortMapKeys, hc]
  | some c =>
    simp only [tryAndSortMapKeys, hc]
    rw [sortByKeyM_map c (fun p => (p.1, g p.2)) (fun p q => rfl) l]
    cases sortByKeyM c l <;> simp

theorem flat_redactFieldToks (o : Options)
    (prev? : Option (String × GoTag × GoType))
    (d : String × GoTag × GoType) (anon masked : Bool) (mt : List Tok) :
    redactField o prev? d anon masked (flatToks o.redact mt) =
      (flatToks o.redact (redactFieldToks o.shape prev? d anon masked mt).1,
        (redactFieldToks o.shape prev? d anon masked mt).2) := by
  unfold redactField redactFieldToks
  have htag : o.shape.tag = o.redact.tag := rfl
  rw [htag]
  cases h : tagLookup d.2.1 o.redact.tag with
  | none => simp [flatToks]
  | some tag =>
    by_cases h1 : tag == REMOVE
    · simp [h1, flatToks]
    · by_cases h2 : tag == REPLACE
      · simp [h1, h2, flatToks, flatTok, isRemovedShape, isRemoved,
          Options.shape, ShapeOpts.repl, String.append_empty]
      · by_cases h3 : (tag == MASK || masked) = true
        · simp [h1, h2, h3, flatToks, flatTok, isRemovedShape, isRemoved,
            Options.shape]
        · simp [h1, h2, h3, flatToks, flatTok, isRemovedShape, isRemoved,
            Options.shape, String.append_empty]

theorem recursionMarkShape_shape (o : Options) (ptrs : Nat) (t : GoType)
    (implicit : Bool) :
    recursionMarkShape o.shape ptrs t implicit =
      recursionMark o ptrs t implicit := rfl

theorem isRemovedShape_shape (o : Options) (f : String × GoTag × GoType) :
    isRemovedShape o.shape f = isRemoved o f := rfl

theorem shape_active (o : Options) : o.shape.active = o.redact.active := rfl

theorem flatRenderAux (o : Options) :
    ∀ N : Nat,
      (∀ (v : GoValue) (s : List Nat) (ptrs : Nat) (implicit masked : Bool),
          sizeOf v ≤ N →
          render s ptrs v implicit masked o =
            flatToks o.redact
              (renderToks s ptrs v implicit masked o.shape)) ∧
      (∀ (vs : List GoValue) (s : List Nat) (sa : Bool)
          (prev : Option (String × GoTag × GoType))
          (ds : List (String × GoTag × GoType)) (masked : Bool),
          sizeOf vs ≤ N →
          renderFields s sa prev ds vs masked o =
            flatToks o.redact
              (renderFieldsToks s sa prev ds vs masked o.shape)) ∧
      (∀ (es : List GoValue) (s : List Nat) (first anon masked : Bool),
          sizeOf es ≤ N →
          renderElems s first anon es masked o =
            flatToks o.redact
              (renderElemsToks s first anon es masked o.shape)) ∧
      (∀ (entries : List (GoValue × GoValue)) (s : List Nat)
          (kA vA masked : Bool),
          sizeOf entries ≤ N →
          renderEntryList s kA vA entries masked o =
            (renderEntryListToks s kA vA entries masked o.shape).map
              (fun p => (p.1, flatToks o.redact p.2))) := by
  intro N
  induction N with
  | zero =>
    refine ⟨?_, ?_, ?_, ?_⟩
    · intro v s ptrs implicit masked h
      cases v <;> simp at h
    · intro vs s sa prev ds masked h
      cases vs <;> simp at h
    · intro es s first anon masked h
      cases es <;> simp at h
    · intro entries s kA vA masked h
      cases entries <;> simp at h
  | succ N ihN =>
    obtain ⟨ihV, ihF, ihE, ihM⟩ := ihN
    refine ⟨?_, ?_, ?_, ?_⟩
    · intro v s ptrs implicit masked h
      cases v with
      | vinvalid => rfl
      | vbool t b =>
        simp only [render, renderToks]
        rw [flatToks_fmtOrToks, flatToks_scalarRenderToks]
      | vint t n =>
        simp only [render, renderToks]
        rw [flatToks_fmtOrToks, flatToks_scalarRenderToks]
      | vuint t n =>
        simp only [render, renderToks]
        rw [flatToks_fmtOrToks, flatToks_scalarRenderToks]
      | vfloat t x =>
        simp only [render, renderToks]
        rw [flatToks_fmtOrToks, flatToks_scalarRenderToks]
      | vcomplex t re im =>
        simp only [render, renderToks]
        rw [flatToks_fmtOrToks, flatToks_scalarRenderToks]
      | vstring t str =>
        simp only [render, renderToks]
        rw [flatToks_fmtOrToks, flatToks_scalarRenderToks]
      | vstruct t fs =>
        have hsz : sizeOf fs ≤ N := by simp at h; omega
        have hr := ihF fs s (t.tname == "") none t.structFields masked hsz
        simp only [render, renderToks]
        rw [flatToks_fmtOrToks]
        simp [flatToks, flatTok, flatToks_append, hr, String.append_assoc,
          String.append_empty]
      | vslice t id es? =>
        cases es? with
        | none =>
          simp only [render, renderToks]
          rw [flatToks_fmtOrToks]
          cases hcg : cycleGate s id with
          | none =>
            simp [flatToks, flatTok, recursionMarkShape_shape,
              String.append_empty]
          | some s1 => simp [flatToks, flatTok, String.append_empty]
        | some es =>
          have hsz : sizeOf es ≤ N := by simp at h; omega
          simp only [render, renderToks]
          rw [flatToks_fmtOrToks]
          cases hcg : cycleGate s id with
          | none =>
            simp [flatToks, flatTok, recursionMarkShape_shape,
              String.append_empty]
          | some s1 =>
            have hr := ihE es s1 true (t.tname == "" && isAnon t.elemType)
              masked hsz
            simp [flatToks, flatTok, flatToks_append, hr,
              String.append_assoc, String.append_empty]
      | varray t es =>
        have hsz : sizeOf es ≤ N := by simp at h; omega
        have hr := ihE es s true (t.tname == "" && isAnon t.elemType)
          masked hsz
        simp only [render, renderToks]
        rw [flatToks_fmtOrToks]
        simp [flatToks, flatTok, flatToks_append, hr, String.append_assoc,
          String.append_empty]
      | vmap t id entries? =>
        cases entries? with
        | none =>
          simp only [render, renderToks]
          rw [flatToks_fmtOrToks]
          cases hcg : cycleGate s id with
          | none =>
            simp [flatToks, flatTok, recursionMarkShape_shape,
              String.append_empty]
          | some s1 => simp [flatToks, flatTok, String.append_empty]
        | some entries =>
          have hsz : sizeOf entries ≤ N := by simp at h; omega
          simp only [render, renderToks]
          rw [flatToks_fmtOrToks]
          cases hcg : cycleGate s id with
          | none =>
            simp [flatToks, flatTok, recursionMarkShape_shape,
              String.append_empty]
          | some s1 =>
            have hr := ihM entries s1 (keyConvAnon t.keyType)
              (t.tname == "" && isAnon t.elemType) masked hsz
            simp [flatToks, flatTok, flatToks_append, hr,
              tryAndSortMapKeys_map, flatToks_joinCommaToks, List.map_map,
              Function.comp_def, String.append_assoc, String.append_empty]
      | vptr t id tgt? =>
        cases tgt? with
        | none =>
          simp only [render, renderToks]
          rw [flatToks_fmtOrToks]
          simp [flatToks, flatTok, String.append_empty]
        | some tgt =>
          have hsz : sizeOf tgt ≤ N := by simp at h; omega
          simp only [render, renderToks]
          rw [flatToks_fmtOrToks]
          cases hcg : cycleGate s (ptrCycleId id tgt) with
          | none =>
            simp [flatToks, flatTok, recursionMarkShape_shape,
              String.append_empty]
          | some s1 =>
            have hr := ihV tgt s1 (ptrs + 1) false masked hsz
            simp [hr]
      | viface t d1 d2 w? =>
        cases w? with
        | none =>
          simp only [render, renderToks]
          rw [flatToks_fmtOrToks]
          simp [flatToks, flatTok, String.append_empty]
        | some w =>
          have hsz : sizeOf w ≤ N := by simp at h; omega
          simp only [render, renderToks]
          rw [flatToks_fmtOrToks, ihV w s ptrs false masked hsz]
      | vchan t id =>
        simp only [render, renderToks]
        rw [flatToks_fmtOrToks]
        simp [flatToks, flatTok, renderPointerOut, String.append_assoc,
          String.append_empty]
      | vfunc t id =>
        simp only [render, renderToks]
        rw [flatToks_fmtOrToks]
        simp [flatToks, flatTok, renderPointerOut, String.append_assoc,
          String.append_empty]
      | vunsafeptr t id =>
        simp only [render, renderToks]
        rw [flatToks_fmtOrToks]
        simp [flatToks, flatTok, renderPointerOut, String.append_assoc,
          String.append_empty]
    · intro vs s sa prev ds masked h
      cases ds with
      | nil => cases vs <;> rfl
      | cons d ds' =>
        cases vs with
        | nil => rfl
        | cons fv vs' =>
          have hsz1 : sizeOf fv ≤ N := by simp at h; omega
          have hsz2 : sizeOf vs' ≤ N := by simp at h; omega
          have hm := ihV fv s 0 (sa && isAnon d.2.2) true hsz1
          have hn := ihV fv s 0 (sa && isAnon d.2.2) masked hsz1
          have ht := ihF vs' s sa (some d) ds' masked hsz2
          simp only [renderFields, renderFieldsToks]
          rw [hm, hn, ht, flat_redactFieldToks]
          by_cases hact : o.redact.active = true
          · cases hrf : redactFieldToks o.shape prev d (sa && isAnon d.2.2)
                masked (renderToks s 0 fv (sa && isAnon d.2.2) true o.shape)
              with
            | mk outT b =>
              cases b <;>
                simp [hact, flatToks, flatTok, flatToks_append, shape_active,
                  isRemovedShape_shape, String.append_assoc,
                  String.append_empty]
          · simp [hact, flatToks, flatTok, flatToks_append, shape_active,
              isRemovedShape_shape, String.append_assoc, String.append_empty]
    · intro es s first anon masked h
      cases es with
      | nil => rfl
      | cons e tl =>
        have hsz1 : sizeOf e ≤ N := by simp at h; omega
        have hsz2 : sizeOf tl ≤ N := by simp at h; omega
        simp only [renderElems, renderElemsToks]
        rw [ihV e s 0 anon masked hsz1, ihE tl s false anon masked hsz2]
        simp [flatToks, flatTok, flatToks_append, String.append_assoc,
          String.append_empty]
    · intro entries s kA vA masked h
      cases entries with
      | nil => rfl
      | cons p tl =>
        obtain ⟨k, v⟩ := p
        have hsz1 : sizeOf k ≤ N := by simp at h; omega
        have hsz2 : sizeOf v ≤ N := by simp at h; omega
        have hsz3 : sizeOf tl ≤ N := by simp at h; omega
        simp only [renderEntryList, renderEntryListToks]
        rw [ihV k s 0 kA masked hsz1, ihV v s 0 vA masked hsz2,
          ihM tl s kA vA masked hsz3]
        simp [flatToks, flatTok, flatToks_append, String.append_assoc,
          String.append_empty]

/-- `render` is the flattening of the tagged token stream: `lit` tokens
(structure text) are written verbatim, only `num`/`qstr` tokens (scalar
content) pass through `maskWrite`. -/
theorem render_eq_flatToks (o : Options) (s : List Nat) (ptrs : Nat)
    (v : GoValue) (implicit masked : Bool) :
    render s ptrs v implicit masked o =
      flatToks o.redact (renderToks s ptrs v implicit masked o.shape) :=
  (flatRenderAux o (sizeOf v)).1 v s ptrs implicit masked le_rfl

/-! Concrete types and values of the repository's tests, used by the claim
theorems below. -/

def tInt : GoType := .tint "int" "int" "int"

def tString : GoType := .tstring "string" "string"

def tF : GoType := .tfloat "float64" "float64" "float64"

def f1 : GoValue := .vfloat tF (.fin 1)

def f2 : GoValue := .vfloat tF (.fin 2)

def fn : GoValue := .vfloat tF .nan

def tUP : GoType := .tunsafeptr "Pointer" "unsafe.Pointer"

def tIfaceE : GoType := .tiface "" "interface \x7b\x7d"

def tMapSI : GoType :=
  .tmap "" "map[string]interface \x7b\x7d" tString tIfaceE

def tArrKey : GoType := .tarray 1 "" "[1]int" tInt

def tArrMap : GoType := .tmap "" "map[[1]int]int" tArrKey tInt

def ak1 : GoValue := .varray tArrKey [.vint tInt 1]

def ak2 : GoValue := .varray tArrKey [.vint tInt 2]

def tMyIntType : GoType := .tint "int" "myIntType" "render.myIntType"

def tNamedInt : GoType := .tint "int" "namedInt" "render.namedInt"

def tEmptyStruct : GoType := .tstruct "" "struct \x7b\x7d" []

def tNamedIntMap : GoType :=
  .tmap "" "map[render.namedInt]struct \x7b\x7d" tNamedInt tEmptyStruct

def tMapIS : GoType := .tmap "" "map[int]string" tInt tString

def cInt : Cmp := (cmpForType tInt).getD (fun _ _ => none)

/-- The struct `render.tS \x7b A int; B int redact-REMOVE; C int \x7d`. -/
def tMid : GoType :=
  .tstruct "tS" "render.tS"
    [("A", [], tInt), ("B", [("redact", "REMOVE")], tInt), ("C", [], tInt)]

/-- A struct whose every field carries `redact:"REMOVE"`. -/
def tAllRem : GoType :=
  .tstruct "tA" "render.tA"
    [("A", [("redact", "REMOVE")], tInt), ("B", [("redact", "REMOVE")], tInt)]

/-- Default options with a registered `string` formatter that always
panics. -/
def panicReg : Options :=
  { defaultOptions with
    render := { defaultRenderOptions with
      typeFormatters := fun nm =>
        if nm = "string" then some (fun _ => none) else none } }

/-- The default redact options switched on (forward masking, `#`, 4). -/
def maskFwdOptions : RedactOptions :=
  { defaultRedactOptions with active := true }

/-- Active redact options masking the last 2 characters with `#`. -/
def maskRev2Options : RedactOptions :=
  { defaultRedactOptions with
    active := true, maskingLength := 2, maskingReverse := true }

/-! The claims. -/

/-- C1: the claim (a field tagged REMOVE is omitted entirely, removing all
fields yields `\x7b\x7d`, and the separator decision considers the nearest
retained neighbour) fails in the code: the separator check reads only the
positionally preceding declared field (`i > 0 && !opts.isRemoved(vt.Field(i-1))`),
so in `render.tS \x7b A; B REMOVE; C \x7d` the surviving neighbours A and C are
written with no separator at all: `render.tS\x7bA:1C:3\x7d` instead of the
required `render.tS\x7bA:1, C:3\x7d`.  Removing every field does yield
`render.tA\x7b\x7d`. -/
theorem C1_remove_separator_bug :
    (marshallerRedact defaultOptions
        (.vstruct tMid [.vint tInt 1, .vint tInt 2, .vint tInt 3])).1 =
      "render.tS\x7bA:1C:3\x7d" ∧
    (marshallerRedact defaultOptions
        (.vstruct tAllRem [.vint tInt 1, .vint tInt 2])).1 =
      "render.tA\x7b\x7d" :=
  ⟨rfl, rfl⟩

/-- C2: the claim (Render/Redact leave the marshaller's options unchanged)
fails in the code: `Redact` copies the options *pointer* (`opts := m.options`)
and writes `opts.redact.active = true` through it, mutating the shared
configuration that was constructed with `active = false`; `Render` writes
`active = false` back through the same pointer. -/
theorem C2_redact_mutates_options :
    defaultOptions.redact.active = false ∧
    (marshallerRedact defaultOptions (.vint tInt 42)).2.redact.active = true ∧
    (marshallerRender defaultOptions (.vint tInt 42)).2 = defaultOptions :=
  ⟨rfl, rfl, rfl⟩

/-- C3: for every value of a cycle-tracked kind (slice, map, or pointer to
struct/array) whose non-zero identity is already on the traversal chain,
`render` writes `<` ++ recursion-placeholder ++ `(` ++ type-unless-implicit
++ `)>` and does not recurse; an identity not yet on the chain extends the
chain (so the first occurrence on a path is expanded), and extending a
duplicate-free chain keeps it duplicate-free (the chain is per-path: each
fork starts from the current path's chain only). -/
theorem C3_cycle_placeholder (s : List Nat) (ptrs : Nat) (v : GoValue)
    (implicit masked : Bool) (o : Options)
    (hfmt : o.render.typeFormatters v.typeOf.tstr = none)
    (hid : cycleId v ≠ 0) :
    (cycleId v ∈ s →
      render s ptrs v implicit masked o =
        "<" ++ o.render.recursionPlaceholder ++ "(" ++
          (if implicit then "" else writeType ptrs v.typeOf) ++ ")>") ∧
    (cycleId v ∉ s → cycleGate s (cycleId v) = some (cycleId v :: s)) ∧
    (∀ s' : List Nat, s.Nodup → cycleGate s (cycleId v) = some s' →
      s'.Nodup) := by
  refine ⟨?_, ?_, ?_⟩
  · intro hmem
    cases v with
    | vslice t id es? =>
      cases es? with
      | none =>
        simp only [cycleId] at hid hmem
        simp only [GoValue.typeOf] at hfmt
        simp [render, fmtOr, callRegisteredTypeFormatter, hfmt, cycleGate,
          forkFor, hid, hmem, recursionMark, GoValue.typeOf]
      | some es =>
        simp only [cycleId] at hid hmem
        simp only [GoValue.typeOf] at hfmt
        simp [render, fmtOr, callRegisteredTypeFormatter, hfmt, cycleGate,
          forkFor, hid, hmem, recursionMark, GoValue.typeOf]
    | vmap t id entries? =>
      cases entries? with
      | none =>
        simp only [cycleId] at hid hmem
        simp only [GoValue.typeOf] at hfmt
        simp [render, fmtOr, callRegisteredTypeFormatter, hfmt, cycleGate,
          forkFor, hid, hmem, recursionMark, GoValue.typeOf]
      | some entries =>
        simp only [cycleId] at hid hmem
        simp only [GoValue.typeOf] at hfmt
        simp [render, fmtOr, callRegisteredTypeFormatter, hfmt, cycleGate,
          forkFor, hid, hmem, recursionMark, GoValue.typeOf]
    | vptr t id tgt? =>
      cases tgt? with
      | none => simp [cycleId] at hid
      | some tgt =>
        simp only [cycleId] at hid hmem
        simp only [GoValue.typeOf] at hfmt
        simp [render, fmtOr, callRegisteredTypeFormatter, hfmt, cycleGate,
          forkFor, hid, hmem, recursionMark, GoValue.typeOf]
    | vinvalid => simp [cycleId] at hid
    | vbool t b => simp [cycleId] at hid
    | vint t n => simp [cycleId] at hid
    | vuint t n => simp [cycleId] at hid
    | vfloat t x => simp [cycleId] at hid
    | vcomplex t re im => simp [cycleId] at hid
    | vstring t str => simp [cycleId] at hid
    | vstruct t fs => simp [cycleId] at hid
    | varray t es => simp [cycleId] at hid
    | viface t d1 d2 w => simp [cycleId] at hid
    | vchan t id => simp [cycleId] at hid
    | vfunc t id => simp [cycleId] at hid
    | vunsafeptr t id => simp [cycleId] at hid
  · intro hmem
    simp [cycleGate, forkFor, hid, hmem]
  · intro s' hnd hcg
    simp only [cycleGate, forkFor, hid, if_false] at hcg
    by_cases hmem : cycleId v ∈ s
    · simp [hmem] at hcg
    · simp only [hmem, if_false, Option.some_inj] at hcg
      rw [← hcg]
      exact List.nodup_cons.mpr ⟨hmem, hnd⟩

/-- Witness for C3: the already-visited map identity 23 renders as the
recursion placeholder. -/
theorem C3_cycle_placeholder_witness :
    render [23] 0 (GoValue.vmap tMapSI 23 (some [])) false false
        defaultOptions =
      "<" ++ defaultOptions.render.recursionPlaceholder ++ "(" ++
        (if false then ""
         else writeType 0 (GoValue.vmap tMapSI 23 (some [])).typeOf) ++
        ")>" :=
  (C3_cycle_placeholder [23] 0 (GoValue.vmap tMapSI 23 (some [])) false false
    defaultOptions rfl (by decide)).1 (by decide)

/-- C4: `MaskWriter.Write` of content `p` with an active masked writer:
a negative masking length or one at least the content length replaces the
whole content with the mask character repeated to the content's length;
otherwise a reverse (suffix) mask keeps the first `len − L` characters and
masks the last `L`, and a forward (prefix) mask masks the first `L` and
keeps the rest; in particular length 4 forward on `"randomString"` gives
`"####omString"` and length 2 reversed gives `"randomStri##"`. -/
theorem C4_mask_write (r : RedactOptions) (p : String)
    (hact : r.active = true) :
    (r.maskingLength < 0 ∨ (p.length : Int) ≤ r.maskingLength →
      maskWrite r true p = maskRepeat r.maskingChar p.length) ∧
    (0 ≤ r.maskingLength → r.maskingLength < (p.length : Int) →
      r.maskingReverse = true →
      maskWrite r true p =
        String.mk (p.data.take (p.length - r.maskingLength.toNat)) ++
          maskRepeat r.maskingChar r.maskingLength.toNat) ∧
    (0 ≤ r.maskingLength → r.maskingLength < (p.length : Int) →
      r.maskingReverse = false →
      maskWrite r true p =
        maskRepeat r.maskingChar r.maskingLength.toNat ++
          String.mk (p.data.drop r.maskingLength.toNat)) ∧
    maskWrite maskFwdOptions true "randomString" = "####omString" ∧
    maskWrite maskRev2Options true "randomString" = "randomStri##" := by
  refine ⟨?_, ?_, ?_, rfl, rfl⟩
  · intro h
    have hc : (decide (r.maskingLength < 0) ||
        decide ((p.length : Int) ≤ r.maskingLength)) = true := by
      rcases h with h | h <;> simp [h]
    simp [maskWrite, hact, hc]
  · intro h0 h1 hrev
    have hc : (decide (r.maskingLength < 0) ||
        decide ((p.length : Int) ≤ r.maskingLength)) = false := by
      simp only [Bool.or_eq_false_iff, decide_eq_false_iff_not]
      exact ⟨by omega, by omega⟩
    simp [maskWrite, hact, hc, hrev]
  · intro h0 h1 hrev
    have hc : (decide (r.maskingLength < 0) ||
        decide ((p.length : Int) ≤ r.maskingLength)) = false := by
      simp only [Bool.or_eq_false_iff, decide_eq_false_iff_not]
      exact ⟨by omega, by omega⟩
    simp [maskWrite, hact, hc, hrev]

/-- Witness for C4: forward masking of length 4 on `"randomString"`. -/
theorem C4_mask_write_witness :
    maskWrite maskFwdOptions true "randomString" =
      maskRepeat maskFwdOptions.maskingChar
          maskFwdOptions.maskingLength.toNat ++
        String.mk ("randomString".data.drop
          maskFwdOptions.maskingLength.toNat) :=
  (C4_mask_write maskFwdOptions "randomString" rfl).2.2.1 (by decide)
    (by decide) rfl

/-- C5: when every registered formatter panics on every value (`f w = none`
models the panic, recovered by the deferred `recover`), `Render` and
`Redact` produce exactly the text they produce with no formatter registered
at all — the fallback is total (no failure escapes) and leaves no partial
output, since the source writes to the builder only after the formatter has
returned. -/
theorem C5_formatter_panic_fallback (o : Options) (v : GoValue)
    (hpanic : ∀ ts f w, o.render.typeFormatters ts = some f → f w = none) :
    (marshallerRender o v).1 = (marshallerRender (noFmt o) v).1 ∧
    (marshallerRedact o v).1 = (marshallerRedact (noFmt o) v).1 := by
  refine ⟨?_, ?_⟩
  · exact render_panic_fallback
      { o with redact := { o.redact with active := false } }
      (fun ts f w h => hpanic ts f w h) [] 0 v false false
  · exact render_panic_fallback
      { o with redact := { o.redact with active := true } }
      (fun ts f w h => hpanic ts f w h) [] 0 v false false

/-- Witness for C5: a panicking `string` formatter falls back to the
generic rendering of `"shouldnotpanic"`. -/
theorem C5_formatter_panic_fallback_witness :
    (marshallerRender panicReg (GoValue.vstring tString "shouldnotpanic")).1 =
      (marshallerRender (noFmt panicReg)
        (GoValue.vstring tString "shouldnotpanic")).1 :=
  (C5_formatter_panic_fallback panicReg
    (GoValue.vstring tString "shouldnotpanic")
    (fun ts f w h => by
      by_cases hts : ts = "string"
      · subst hts
        have h2 : some (fun _ : GoValue => (none : Option String)) = some f :=
          by simpa [panicReg] using h
        rw [← Option.some_inj.mp h2]
      · simp [panicReg, hts] at h)).1

/-- C6 counterexample: Go float keys may be NaN, on which the float
comparator reports a tie with everything while still ordering the other
keys: `cmp 2 NaN = 0` and `cmp NaN 1 = 0` but `cmp 2 1 = 1`, so the
produced relation is not a total order on all producible float keys. -/
theorem C6_nan_breaks_order :
    cmpVal tF f2 fn = some 0 ∧ cmpVal tF fn f1 = some 0 ∧
      cmpVal tF f2 f1 = some 1 :=
  ⟨rfl, rfl, rfl⟩

/-- C6 (amended to NaN-free keys): on well-shaped NaN-free keys of every
comparator kind (strings, booleans, signed/unsigned, floats, complex by
real then imaginary part, pointers/channels by identity, interface keys by
their discriminator words, structs field-by-field — every kind `cmpOk`
holds for), the comparator is total and antisymmetric and its `≤ 0`
relation is transitive; a key type with no comparator leaves the native
order untouched. -/
theorem C6_comparator_total_order (t : GoType) (a b x : GoValue)
    (hok : cmpOk t = true) (ha : okKey t a = true) (hb : okKey t b = true)
    (hx : okKey t x = true) :
    (∃ i, cmpVal t a b = some i ∧ cmpVal t b a = some (-i)) ∧
    ((∃ i, cmpVal t a b = some i ∧ i ≤ 0) →
      (∃ j, cmpVal t b x = some j ∧ j ≤ 0) →
      ∃ k, cmpVal t a x = some k ∧ k ≤ 0) ∧
    (∀ (kt : GoType) (l : List (GoValue × String)),
      cmpForType kt = none → tryAndSortMapKeys kt l = l) := by
  rw [okKey, Bool.and_eq_true] at ha hb hx
  refine ⟨cmpVal_antisym t a b hok ha.1 ha.2 hb.1 hb.2,
    fun h1 h2 => cmpVal_le_trans t a b x hok ⟨ha.1, ha.2⟩ ⟨hb.1, hb.2⟩
      ⟨hx.1, hx.2⟩ h1 h2, ?_⟩
  intro kt l h
  simp [tryAndSortMapKeys, h]

/-- Witness for C6 at the int keys 1, 2, 3. -/
theorem C6_comparator_total_order_witness :
    (∃ i, cmpVal tInt (.vint tInt 1) (.vint tInt 2) = some i ∧
      cmpVal tInt (.vint tInt 2) (.vint tInt 1) = some (-i)) ∧
    ((∃ i, cmpVal tInt (.vint tInt 1) (.vint tInt 2) = some i ∧ i ≤ 0) →
      (∃ j, cmpVal tInt (.vint tInt 2) (.vint tInt 3) = some j ∧ j ≤ 0) →
      ∃ k, cmpVal tInt (.vint tInt 1) (.vint tInt 3) = some k ∧ k ≤ 0) ∧
    (∀ (kt : GoType) (l : List (GoValue × String)),
      cmpForType kt = none → tryAndSortMapKeys kt l = l) :=
  C6_comparator_total_order tInt (.vint tInt 1) (.vint tInt 2)
    (.vint tInt 3) rfl rfl rfl rfl

/-- C7 counterexample: a map whose key type has no comparator (array
keys) is emitted in the container's native iteration order, so two
structurally-equal maps that iterate differently render differently. -/
theorem C7_native_order_dependence :
    (marshallerRender defaultOptions
        (.vmap tArrMap 9 (some [(ak1, .vint tInt 10), (ak2, .vint tInt 20)]))).1
      ≠
    (marshallerRender defaultOptions
        (.vmap tArrMap 9 (some [(ak2, .vint tInt 20), (ak1, .vint tInt 10)]))).1
    := by decide

/-- C7 (amended): rendering a map is independent of the container's
iteration order whenever the key type has a comparator of a total kind
(`cmpOk`), the keys are well-shaped, NaN-free and pairwise tie-free under
that comparator, and no formatter overrides the map's type; for key types
with no comparator the native order leaks into the output. -/
theorem C7_map_render_order_invariant (s : List Nat) (ptrs : Nat)
    (t : GoType) (id : Nat) (e1 e2 : List (GoValue × GoValue))
    (implicit masked : Bool) (o : Options) (c : Cmp)
    (hok : cmpOk t.keyType = true) (hc : cmpForType t.keyType = some c)
    (hfmt : o.render.typeFormatters t.tstr = none)
    (hperm : List.Perm e1 e2)
    (hdom : ∀ q ∈ e1, okKey t.keyType q.1 = true)
    (htf : e1.Pairwise (tieFree c)) :
    render s ptrs (.vmap t id (some e1)) implicit masked o =
      render s ptrs (.vmap t id (some e2)) implicit masked o :=
  render_map_perm s ptrs t id e1 e2 implicit masked o c hok hc hfmt hperm
    (fun q hq => by
      have hd := hdom q hq
      rw [okKey, Bool.and_eq_true] at hd
      exact ⟨hd.1, hd.2⟩)
    htf

/-- Witness for C7: the spec's own example, `\x7b2:"bar", 1:"foo"\x7d`
against `\x7b1:"foo", 2:"bar"\x7d`. -/
theorem C7_map_render_order_invariant_witness :
    render [] 0 (.vmap tMapIS 9 (some
        [(.vint tInt 2, .vstring tString "bar"),
         (.vint tInt 1, .vstring tString "foo")])) false false
        defaultOptions =
      render [] 0 (.vmap tMapIS 9 (some
        [(.vint tInt 1, .vstring tString "foo"),
         (.vint tInt 2, .vstring tString "bar")])) false false
        defaultOptions :=
  C7_map_render_order_invariant [] 0 tMapIS 9
    [(.vint tInt 2, .vstring tString "bar"),
     (.vint tInt 1, .vstring tString "foo")]
    [(.vint tInt 1, .vstring tString "foo"),
     (.vint tInt 2, .vstring tString "bar")]
    false false defaultOptions cInt rfl rfl rfl
    (List.Perm.swap (GoValue.vint tInt 1, GoValue.vstring tString "foo")
      (GoValue.vint tInt 2, GoValue.vstring tString "bar") [])
    (by
      intro q hq
      simp only [List.mem_cons, List.mem_singleton, List.not_mem_nil,
        or_false] at hq
      rcases hq with h | h <;> rw [h] <;> rfl)
    (by
      refine List.Pairwise.cons ?_ (List.pairwise_singleton _ _)
      intro q hq
      simp only [List.mem_singleton] at hq
      rw [hq]
      exact ⟨by decide, by decide⟩)

/-- C8 counterexample: a named-int map key renders bare (`10`, not
`render.namedInt(10)`) although its type name differs from the built-in
name of its kind — the `implicit` flag is also inherited from the
container (the map-key conversion test), so "implicit exactly when the
type name equals the built-in name at depth zero" is false.  The same
value at top level does carry the type prefix. -/
theorem C8_named_key_renders_bare :
    render [] 0 (.vmap tNamedIntMap 8
        (some [(.vint tNamedInt 10, .vstruct tEmptyStruct [])]))
        false false defaultOptions =
      "map[render.namedInt]struct \x7b\x7d\x7b10:\x7b\x7d\x7d" ∧
    tNamedInt.kindBuiltinName ≠ tNamedInt.tstr ∧
    render [] 0 (.vint tNamedInt 10) false false defaultOptions =
      "render.namedInt(10)" :=
  ⟨rfl, by decide, rfl⟩

/-- C8 (amended): a scalar renders bare exactly when the `implicit` flag
is inherited from its context *or* its type name textually equals the
built-in name of its kind at reference depth zero; otherwise the type
prefix and parentheses are written.  The spec's three examples hold:
`123` renders `123`, `myIntType(12)` renders `render.myIntType(12)`, a
nil `*render.myIntType` renders `(*render.myIntType)(nil)`. -/
theorem C8_scalar_implicit_rendering (o : Options) (s : List Nat)
    (ptrs : Nat) (t : GoType) (n : Int) (implicit masked : Bool)
    (hfmt : o.render.typeFormatters t.tstr = none) :
    render s ptrs (.vint t n) implicit masked o =
      (if implicit = true ∨ (ptrs = 0 ∧ t.kindBuiltinName = t.tstr) then
        maskWrite o.redact masked (goIntRepr n)
      else
        writeType ptrs t ++ "(" ++ maskWrite o.redact masked (goIntRepr n)
          ++ ")") ∧
    render [] 0 (.vint tInt 123) false false defaultOptions = "123" ∧
    render [] 0 (.vint tMyIntType 12) false false defaultOptions =
      "render.myIntType(12)" ∧
    render [] 0 (.vptr (.tptr tMyIntType) 0 none) false false
        defaultOptions =
      "(*render.myIntType)(nil)" := by
  refine ⟨?_, rfl, rfl, rfl⟩
  have hb : scalarImplicit implicit ptrs t.kindBuiltinName t.tstr =
      decide (implicit = true ∨ (ptrs = 0 ∧ t.kindBuiltinName = t.tstr)) := by
    simp only [scalarImplicit]
    cases implicit with
    | true => simp
    | false =>
      by_cases h2 : ptrs = 0 <;> by_cases h3 : t.kindBuiltinName = t.tstr <;>
        simp [h2, h3]
  simp only [render, fmtOr, callRegisteredTypeFormatter, hfmt, scalarRender,
    hb]
  by_cases hcond : implicit = true ∨ (ptrs = 0 ∧ t.kindBuiltinName = t.tstr)
    <;> simp [hcond, String.append_assoc]

/-- Witness for C8: the named type `render.myIntType` at depth 0 gets its
prefix. -/
theorem C8_scalar_implicit_rendering_witness :
    render [] 0 (.vint tMyIntType 12) false false defaultOptions =
      (if false = true ∨
          (0 = 0 ∧ tMyIntType.kindBuiltinName = tMyIntType.tstr) then
        maskWrite defaultOptions.redact false (goIntRepr 12)
      else
        writeType 0 tMyIntType ++ "(" ++
          maskWrite defaultOptions.redact false (goIntRepr 12) ++ ")") :=
  (C8_scalar_implicit_rendering defaultOptions [] 0 tMyIntType 12 false
    false rfl).1

/-- C9: the claim (no panic path during a render call) fails in the code:
`cmpForType` groups `reflect.UnsafePointer` with the unsigned kinds and
calls `Value.Uint()` on the keys, which panics on an unsafe.Pointer value;
the comparator for `unsafe.Pointer` is defined (non-nil), so rendering a
map with two such keys reaches `sort.Sort` and panics inside `Less`. -/
theorem C9_unsafeptr_sort_panics :
    (cmpForType tUP).isSome = true ∧
    mapSortPanics tUP
      [(GoValue.vunsafeptr tUP 1, GoValue.vint tInt 1),
       (GoValue.vunsafeptr tUP 2, GoValue.vint tInt 2)] = true ∧
    mapSortPanics tUP
      [(GoValue.vunsafeptr tUP 1, GoValue.vint tInt 1)] = false :=
  ⟨rfl, rfl, rfl⟩

/-- C10: masking never obscures structure.  `render` equals the flattening
of a token stream in which every write is tagged with its destination:
`lit` tokens (type prefixes, braces, comma separators, struct field names,
map-key colons, the quotes of `%q`, placeholders and formatter output, all
written to the raw builder in the source) are emitted verbatim by
`flatTok`, and only `num`/`qstr` tokens (scalar content and pointer
identities, written through the mask writer) pass through `maskWrite`;
moreover the token stream itself is computed from `ShapeOpts`, which
contains no masking parameter, so options differing only in masking
character, length or direction yield the same token stream. -/
theorem C10_masking_keeps_structure (o : Options) (s : List Nat)
    (ptrs : Nat) (v : GoValue) (implicit masked : Bool) :
    render s ptrs v implicit masked o =
      flatToks o.redact (renderToks s ptrs v implicit masked o.shape) ∧
    (∀ txt, flatTok o.redact (.lit txt) = txt) ∧
    (∀ o' : Options,
      o'.render = o.render → o'.redact.active = o.redact.active →
      o'.redact.tag = o.redact.tag →
      o'.redact.replacementPlaceholder = o.redact.replacementPlaceholder →
      renderToks s ptrs v implicit masked o'.shape =
        renderToks s ptrs v implicit masked o.shape) := by
  refine ⟨render_eq_flatToks o s ptrs v implicit masked, fun txt => rfl, ?_⟩
  intro o' h1 h2 h3 h4
  have hsh : o'.shape = o.shape := by
    simp [Options.shape, h1, h2, h3, h4]
  rw [hsh]

end GoRender
